import Mathlib

/-!
# Task scheduler: scheduling and execution core

A shallow embedding of `internal/scheduler/scheduler.go`,
`internal/scheduler/executor.go`, `internal/services/task_service.go`, the
list handlers of `internal/api/handlers` with `CalculatePaginationMeta` of
`internal/utils/response.go`, and the parts of `internal/db/repository.go` and
`internal/models` they use.

Conventions of the embedding

* A `uuid.UUID` and a `cron.EntryID` are natural numbers.
* A `time.Time` is an integer: nanoseconds counted from Go's zero time, so
  the zero value `time.Time{}` is `0` and `t.Before(u)` is `t < u`.
* A Go `string` and a `[]byte` are written as Lean strings; a slice that may be
  `nil` is an `Option` (`none` is `nil`, `some ""` the empty non-nil slice).
* Pointers that may be `nil` are `Option`s; a method with a pointer receiver
  that mutates its argument returns the new value.
* Stateful code is explicit state passing.  The database is a record of its two
  tables together with a script of the faults its coming calls will hit, the
  clock is a script of the readings `time.Now()` will return.
* The effects whose order matters (starting an execution goroutine, calls to the
  store) are appended to a trace.
* The cron engine (`github.com/robfig/cron/v3`) and the HTTP client are
  libraries outside the repository: the parser, the schedule arithmetic, the
  request constructor and the round trip are parameters.
-/

namespace TaskScheduler

/-! ## models -/

abbrev UUID := Nat
abbrev EntryID := Nat
abbrev Time := Int

abbrev TaskStatus := String

def StatusScheduled : TaskStatus := "scheduled"
def StatusCompleted : TaskStatus := "completed"

abbrev TriggerType := String

def TriggerOneOff : TriggerType := "one-off"
def TriggerCron : TriggerType := "cron"

/-- The field `Kind` is the source's `Type`, a reserved word here. -/
structure Trigger where
  Kind : TriggerType
  DateTime : Option Time
  Cron : Option String
deriving DecidableEq, Repr

/-- The `Headers` map is written in the order in which `range` visits it. -/
structure Action where
  Method : String
  URL : String
  Headers : Option (List (String × String))
  Payload : Option String
deriving DecidableEq, Repr

structure Task where
  ID : UUID
  Name : String
  Trigger : Trigger
  Action : Action
  Status : TaskStatus
  CreatedAt : Time
  UpdatedAt : Time
  NextRun : Option Time
deriving DecidableEq, Repr

structure TaskResult where
  ID : UUID
  TaskID : UUID
  RunAt : Time
  StatusCode : Int
  Success : Bool
  ResponseHeaders : Option String
  ResponseBody : String
  ErrorMessage : Option String
  DurationMs : Int
  CreatedAt : Time
deriving DecidableEq, Repr

/-! ## The job registry: `map[uuid.UUID]cron.EntryID` -/

abbrev Jobs := List (UUID × EntryID)

/-- The lookup `s.jobs[id]` with its `exists` flag. -/
def Jobs.get (m : Jobs) (id : UUID) : Option EntryID :=
  (m.find? (fun p => p.1 == id)).map Prod.snd

/-- The builtin `delete(s.jobs, id)`. -/
def Jobs.delete (m : Jobs) (id : UUID) : Jobs :=
  m.filter (fun p => !(p.1 == id))

/-- The assignment `s.jobs[id] = e`: the key keeps a single value. -/
def Jobs.set (m : Jobs) (id : UUID) (e : EntryID) : Jobs :=
  m.delete id ++ [(id, e)]

/-- Number of registry entries stored under `id`. -/
def Jobs.countFor (m : Jobs) (id : UUID) : Nat :=
  (m.filter (fun p => p.1 == id)).length

/-! ## The cron engine (robfig/cron v3), as far as the scheduler drives it -/

/-- Read `time.Now()` off the clock script. -/
def readClock : List Time → Time × List Time
  | [] => (0, [])
  | t :: rest => (t, rest)

/-- The library's `ParseOption`: bit flags, combined with `|`. -/
abbrev ParseOption := Nat

/-- The flags are declared as `1 << iota`, in this order. -/
def ParseOption.Second : ParseOption := 1 <<< 0
def ParseOption.SecondOptional : ParseOption := 1 <<< 1
def ParseOption.Minute : ParseOption := 1 <<< 2
def ParseOption.Hour : ParseOption := 1 <<< 3
def ParseOption.Dom : ParseOption := 1 <<< 4
def ParseOption.Month : ParseOption := 1 <<< 5
def ParseOption.Dow : ParseOption := 1 <<< 6
def ParseOption.DowOptional : ParseOption := 1 <<< 7
def ParseOption.Descriptor : ParseOption := 1 <<< 8

/-- The library's parsers and schedule arithmetic: `newParser options spec` is
`cron.NewParser(options).Parse(spec)`, telling whether the parser built with
these options accepts `spec` (`none`) or giving its error; `next spec now` is
`Schedule.Next(now)` of the parsed schedule. -/
structure CronLib where
  newParser : ParseOption → String → Option String
  next : String → Time → Time

/-- The options of the parser that the library's `cron.WithSeconds()` installs in
an engine: `WithParser(NewParser(Second | Minute | Hour | Dom | Month | Dow |
Descriptor))`. -/
def WithSeconds : ParseOption :=
  ParseOption.Second ||| ParseOption.Minute ||| ParseOption.Hour ||| ParseOption.Dom |||
    ParseOption.Month ||| ParseOption.Dow ||| ParseOption.Descriptor

/-- The parser of the engine: `NewScheduler` builds the only engine of the
program with `cron.New(cron.WithSeconds())`, and `AddFunc` parses with the parser
the engine was built with. -/
def CronLib.parse (lib : CronLib) (spec : String) : Option String :=
  lib.newParser WithSeconds spec

/-- An engine entry; `job` is the task captured by the registered closure. -/
structure Entry where
  ID : EntryID
  spec : String
  Next : Time
  job : Task
deriving DecidableEq, Repr

structure Cron where
  entries : List Entry
  nextID : EntryID
  running : Bool
deriving DecidableEq, Repr

/-- The engine `cron.New(cron.WithSeconds())` returns: stopped, without entries;
its parser is `CronLib.parse`. -/
def Cron.new : Cron := { entries := [], nextID := 0, running := false }

/-- The call `c.AddFunc(spec, cmd)`: a parse error leaves the engine as it is;
otherwise the entry gets the next id.  A running engine reads the clock and
computes `Next` when it takes the entry in, a stopped one leaves the zero time
until `Start`. -/
def Cron.AddFunc (lib : CronLib) (c : Cron) (clock : List Time) (spec : String) (job : Task) :
    Cron × List Time × Except String EntryID :=
  match lib.parse spec with
  | some err => (c, clock, .error err)
  | none =>
    let id := c.nextID + 1
    if c.running then
      let (now, clock1) := readClock clock
      let entry : Entry := { ID := id, spec := spec, Next := lib.next spec now, job := job }
      ({ c with entries := c.entries ++ [entry], nextID := id }, clock1, .ok id)
    else
      let entry : Entry := { ID := id, spec := spec, Next := 0, job := job }
      ({ c with entries := c.entries ++ [entry], nextID := id }, clock, .ok id)

/-- The call `c.Remove(id)`. -/
def Cron.Remove (c : Cron) (id : EntryID) : Cron :=
  { c with entries := c.entries.filter (fun e => !(e.ID == id)) }

/-- The call `c.Entry(id).Next`; an unknown id gives the zero entry. -/
def Cron.EntryNext (c : Cron) (id : EntryID) : Time :=
  match c.entries.find? (fun e => e.ID == id) with
  | some e => e.Next
  | none => 0

/-! ## The repository -/

/-- The database behind `db.Repository`: the rows of `tasks` and `task_results`
and, for the coming `Query` and `Exec` calls in order, whether the call fails
(an exhausted script means no more faults). -/
structure Repository where
  tasks : List Task
  results : List TaskResult
  queryFaults : List Bool
  execFaults : List Bool
deriving DecidableEq, Repr

/-- Take the next entry of a fault script. -/
def nextFault : List Bool → Bool × List Bool
  | [] => (false, [])
  | b :: rest => (b, rest)

/-- The order `ORDER BY next_run ASC NULLS LAST`. -/
def nextRunLE (a b : Task) : Prop :=
  match a.NextRun, b.NextRun with
  | some x, some y => x ≤ y
  | some _, none => True
  | none, some _ => False
  | none, none => True

instance : DecidableRel nextRunLE := fun a b => by
  unfold nextRunLE
  cases a.NextRun <;> cases b.NextRun <;> infer_instance

/-- The query of `Repository.GetScheduledTasks`. -/
def Repository.GetScheduledTasks (r : Repository) : Repository × Except String (List Task) :=
  let (fault, rest) := nextFault r.queryFaults
  let r1 := { r with queryFaults := rest }
  if fault then (r1, .error "query failed")
  else (r1, .ok ((r.tasks.filter (fun t => t.Status == StatusScheduled)).insertionSort nextRunLE))

/-- The statement of `Repository.UpdateTask`: every row with the task's id takes
its name, trigger, action, status, `updated_at` and `next_run`. -/
def updateRow (task : Task) (row : Task) : Task :=
  if row.ID == task.ID then
    { row with Name := task.Name, Trigger := task.Trigger, Action := task.Action,
               Status := task.Status, UpdatedAt := task.UpdatedAt, NextRun := task.NextRun }
  else row

/-- The method `Repository.UpdateTask`; the flag is `err != nil`. -/
def Repository.UpdateTask (r : Repository) (task : Task) : Repository × Bool :=
  let (fault, rest) := nextFault r.execFaults
  let r1 := { r with execFaults := rest }
  if fault then (r1, true)
  else
    let r2 := { r1 with tasks := r.tasks.map (updateRow task) }
    if (r.tasks.filter (fun row => row.ID == task.ID)).length == 0 then (r2, true)
    else (r2, false)

/-- The method `Repository.CreateTaskResult`: header text that is empty or the
literal `null` is stored as SQL NULL. -/
def Repository.CreateTaskResult (r : Repository) (result : TaskResult) : Repository × Bool :=
  let responseHeaders : Option String :=
    match result.ResponseHeaders with
    | some h => if h.length > 0 && h != "null" then some h else none
    | none => none
  let (fault, rest) := nextFault r.execFaults
  let r1 := { r with execFaults := rest }
  if fault then (r1, true)
  else ({ r1 with results := r.results ++ [{ result with ResponseHeaders := responseHeaders }] }, false)

/-! ## Effects -/

/-- The effects of the scheduler and the executor whose order is observed. -/
inductive Effect where
  /-- The statement `go s.executor.ExecuteTask(&task)`. -/
  | dispatch (task : Task)
  /-- A call `s.repo.UpdateTask(task)` and whether it returned an error. -/
  | updateTask (task : Task) (err : Bool)
  /-- A call `e.repo.CreateTaskResult(result)` and whether it returned an error. -/
  | createTaskResult (result : TaskResult) (err : Bool)
deriving DecidableEq, Repr

/-! ## The scheduler -/

structure Scheduler where
  cron : Cron
  repo : Repository
  jobs : Jobs
  clock : List Time
  trace : List Effect
deriving DecidableEq, Repr

/-- The constructor `NewScheduler`. -/
def NewScheduler (repo : Repository) (clock : List Time) : Scheduler :=
  { cron := Cron.new, repo := repo, jobs := [], clock := clock, trace := [] }

/-- The call `s.repo.UpdateTask(task)` with its effect recorded; both callers in
`ScheduleTask` only log the error. -/
def Scheduler.persist (s : Scheduler) (task : Task) : Scheduler :=
  let (repo, err) := s.repo.UpdateTask task
  { s with repo := repo, trace := s.trace ++ [Effect.updateTask task err] }

/-- The method `Scheduler.scheduleCronTask`. -/
def Scheduler.scheduleCronTask (lib : CronLib) (s : Scheduler) (task : Task) :
    Scheduler × Task × Option String :=
  match task.Trigger.Cron with
  | none => (s, task, none)
  | some cronExpr =>
    match Cron.AddFunc lib s.cron s.clock cronExpr task with
    | (_, _, .error err) => (s, task, some err)
    | (cron, clock, .ok entryID) =>
      let s1 := { s with cron := cron, clock := clock, jobs := s.jobs.set task.ID entryID }
      let nextRun := s1.cron.EntryNext entryID
      let task1 := { task with NextRun := some nextRun }
      (s1.persist task1, task1, none)

/-- The method `Scheduler.scheduleOneOffTask`. -/
def Scheduler.scheduleOneOffTask (s : Scheduler) (task : Task) :
    Scheduler × Task × Option String :=
  match task.Trigger.DateTime with
  | none => (s, task, none)
  | some scheduledTime =>
    let task1 := { task with NextRun := some scheduledTime }
    (s.persist task1, task1, none)

/-- The first step of `ScheduleTask`, also the whole of `RemoveTask`: drop the
registry entry of the id, cancelling its engine entry. -/
def Scheduler.unregister (s : Scheduler) (id : UUID) : Scheduler :=
  match s.jobs.get id with
  | some entryID => { s with cron := s.cron.Remove entryID, jobs := s.jobs.delete id }
  | none => s

/-- The method `Scheduler.ScheduleTask`: the new state, the task as the pointer
leaves it, and the returned error. -/
def Scheduler.ScheduleTask (lib : CronLib) (s : Scheduler) (task : Task) :
    Scheduler × Task × Option String :=
  let s1 := s.unregister task.ID
  if task.Trigger.Kind == TriggerCron then s1.scheduleCronTask lib task
  else if task.Trigger.Kind == TriggerOneOff then s1.scheduleOneOffTask task
  else (s1, task, none)

/-- The method `Scheduler.RemoveTask`. -/
def Scheduler.RemoveTask (s : Scheduler) (taskID : UUID) : Scheduler :=
  s.unregister taskID

/-- The method `Scheduler.loadTasks`: a task that fails to schedule is logged and
the loop goes on; the flag is `err != nil`. -/
def Scheduler.loadTasks (lib : CronLib) (s : Scheduler) : Scheduler × Bool :=
  match s.repo.GetScheduledTasks with
  | (repo, .error _) => ({ s with repo := repo }, true)
  | (repo, .ok tasks) =>
    (tasks.foldl (fun acc task => (acc.ScheduleTask lib task).1) { s with repo := repo }, false)

/-- The call `c.Start()`: a stopped engine starts running and computes the next
fire time of every entry it holds. -/
def Cron.Start (lib : CronLib) (c : Cron) (clock : List Time) : Cron × List Time :=
  if c.running then (c, clock)
  else
    let (now, clock1) := readClock clock
    ({ c with running := true,
              entries := c.entries.map (fun e => { e with Next := lib.next e.spec now }) }, clock1)

/-- The method `Scheduler.Start` up to the launch of the worker, whose ticks are
`runTicks`; the flag is `err != nil`. -/
def Scheduler.Start (lib : CronLib) (s : Scheduler) : Scheduler × Bool :=
  match s.loadTasks lib with
  | (s1, true) => (s1, true)
  | (s1, false) =>
    let (cron, clock) := s1.cron.Start lib s1.clock
    ({ s1 with cron := cron, clock := clock }, false)

/-- The condition of the `if` in the loop of `checkOneOffTasks`. -/
def isDue (now : Time) (task : Task) : Bool :=
  task.Trigger.Kind == TriggerOneOff &&
    (match task.NextRun with
     | some nextRun => decide (nextRun < now)
     | none => false)

/-- The task as the loop body of `checkOneOffTasks` rewrites it. -/
def markCompleted (task : Task) (stamp : Time) : Task :=
  { task with Status := StatusCompleted, UpdatedAt := stamp, NextRun := none }

/-- One iteration of the loop of `checkOneOffTasks`: start the execution, then
mark the task completed in the store, then drop its registry entry.  The
goroutine reads the task's id, name and action, none of which the iteration
rewrites, so the dispatch is recorded with the task as loaded. -/
def Scheduler.checkOneOffStep (now : Time) (s : Scheduler) (task : Task) : Scheduler :=
  if isDue now task then
    let s1 := { s with trace := s.trace ++ [Effect.dispatch task] }
    let (stamp, clock) := readClock s1.clock
    let s2 := { s1 with clock := clock }.persist (markCompleted task stamp)
    { s2 with jobs := s2.jobs.delete task.ID }
  else s

/-- The method `Scheduler.checkOneOffTasks`, one tick of the one-off worker. -/
def Scheduler.checkOneOffTasks (s : Scheduler) : Scheduler :=
  match s.repo.GetScheduledTasks with
  | (repo, .error _) => { s with repo := repo }
  | (repo, .ok tasks) =>
    let (now, clock) := readClock s.clock
    tasks.foldl (Scheduler.checkOneOffStep now) { s with repo := repo, clock := clock }

/-- The worker `runOneOffWorker` over `n` ticks; the ticks run one after the
other on the worker's own goroutine. -/
def Scheduler.runTicks : Nat → Scheduler → Scheduler
  | 0, s => s
  | n + 1, s => Scheduler.runTicks n s.checkOneOffTasks

/-! ## The executor -/

/-- A `http.Header`: canonical key to its values. -/
abbrev Header := List (String × List String)

/-- The call `h.Set(key, value)` on a canonical key. -/
def Header.set (h : Header) (key value : String) : Header :=
  h.filter (fun p => !(p.1 == key)) ++ [(key, [value])]

/-- The call `h.Get(key)` on a canonical key: the first value, the empty string
when there is none. -/
def Header.get (h : Header) (key : String) : String :=
  match h.find? (fun p => p.1 == key) with
  | some (_, v :: _) => v
  | _ => ""

structure Request where
  Method : String
  URL : String
  Header : Header
  Body : Option String
deriving DecidableEq, Repr

/-- A `http.Response` as the executor reads it: `Body` is the text the response
carries, `ReadErr` the error with which `io.ReadAll(resp.Body)` ends, if any. -/
structure Response where
  StatusCode : Int
  Header : Option Header
  Body : String
  ReadErr : Option String

/-- The libraries the executor calls: `canonicalKey` is
`textproto.CanonicalMIMEHeaderKey`, `newRequest method url` the error of
`http.NewRequest` if any, `roundTrip` is `e.client.Do`, `marshal` is
`json.Marshal` on a response header. -/
structure HTTP where
  canonicalKey : String → String
  newRequest : String → String → Option String
  roundTrip : Request → Except String Response
  marshal : Header → Except String String

/-- The executor's state: the store, the clock, the ids `uuid.New()` will
return, and the trace. -/
structure Executor where
  repo : Repository
  clock : List Time
  ids : List UUID
  trace : List Effect
deriving DecidableEq, Repr

/-- The call `uuid.New()`. -/
def newUUID : List UUID → UUID × List UUID
  | [] => (0, [])
  | u :: rest => (u, rest)

/-- The expression `time.Since(startTime).Milliseconds()`. -/
def sinceMs (startTime now : Time) : Int :=
  (now - startTime).tdiv 1000000

/-- The header of the request after the loop `for key, value := range
task.Action.Headers` over a fresh request. -/
def actionHeaders (http : HTTP) (action : Action) : Header :=
  match action.Headers with
  | some hs => hs.foldl (fun h kv => h.set (http.canonicalKey kv.1) kv.2) []
  | none => []

/-- The request `ExecuteTask` builds (lines 42 to 68): `http.NewRequest`, then the
action's headers, then the default content type. -/
def buildRequest (http : HTTP) (action : Action) : Except String Request :=
  let reqBody : Option String :=
    match action.Payload with
    | some p => if p.length > 0 then some p else none
    | none => none
  match http.newRequest action.Method action.URL with
  | some err => .error err
  | none =>
    let h1 : Header := actionHeaders http action
    let h2 : Header :=
      if action.Payload.isSome && h1.get (http.canonicalKey "Content-Type") == "" then
        h1.set (http.canonicalKey "Content-Type") "application/json"
      else h1
    .ok { Method := action.Method, URL := action.URL, Header := h2, Body := reqBody }

/-- The method `Executor.saveResult`: the error of the store is only logged. -/
def Executor.saveResult (e : Executor) (result : TaskResult) : Executor :=
  let (repo, err) := e.repo.CreateTaskResult result
  { e with repo := repo, trace := e.trace ++ [Effect.createTaskResult result err] }

/-- The method `Executor.ExecuteTask`.  Each of its three paths reads the clock
once more for the duration; the reading is taken here before the paths part. -/
def Executor.ExecuteTask (http : HTTP) (e : Executor) (task : Task) : Executor :=
  let (startTime, clock1) := readClock e.clock
  let (id, ids) := newUUID e.ids
  let (createdAt, clock2) := readClock clock1
  let result : TaskResult :=
    { ID := id, TaskID := task.ID, RunAt := startTime, StatusCode := 0, Success := false,
      ResponseHeaders := none, ResponseBody := "", ErrorMessage := none, DurationMs := 0,
      CreatedAt := createdAt }
  let (endTime, clock3) := readClock clock2
  let e1 : Executor := { e with clock := clock3, ids := ids }
  match buildRequest http task.Action with
  | .error err =>
    e1.saveResult
      { result with Success := false,
                    ErrorMessage := some ("Failed to create request: " ++ err),
                    DurationMs := sinceMs startTime endTime }
  | .ok req =>
    match http.roundTrip req with
    | .error err =>
      e1.saveResult
        { result with Success := false,
                      ErrorMessage := some ("Request failed: " ++ err),
                      DurationMs := sinceMs startTime endTime }
    | .ok resp =>
      let body : String :=
        match resp.ReadErr with
        | some _ => ""
        | none => resp.Body
      let headers : String :=
        match resp.Header with
        | some h =>
          match http.marshal h with
          | .ok headersJSON => headersJSON
          | .error _ => "null"
        | none => "null"
      e1.saveResult
        { result with DurationMs := sinceMs startTime endTime,
                      StatusCode := resp.StatusCode,
                      Success := decide (resp.StatusCode ≥ 200) && decide (resp.StatusCode < 300),
                      ResponseBody := body,
                      ResponseHeaders := some headers }

/-! ## The repository, as the task service and the result readers use it -/

/-- The method `Repository.CreateTask`; the flag is `err != nil`. -/
def Repository.CreateTask (r : Repository) (task : Task) : Repository × Bool :=
  let (fault, rest) := nextFault r.execFaults
  let r1 := { r with execFaults := rest }
  if fault then (r1, true)
  else ({ r1 with tasks := r.tasks ++ [task] }, false)

/-- The method `Repository.GetTaskByID`: the row of the id, an error when the
query fails or finds no row. -/
def Repository.GetTaskByID (r : Repository) (id : UUID) : Repository × Except String Task :=
  let (fault, rest) := nextFault r.queryFaults
  let r1 := { r with queryFaults := rest }
  if fault then (r1, .error "query failed")
  else
    match r.tasks.find? (fun row => row.ID == id) with
    | some row => (r1, .ok row)
    | none => (r1, .error "task not found")

/-- A Go `int` after an arithmetic operation: the value wrapped to 64 bits. -/
def wrapInt64 (x : Int) : Int :=
  (x + 2 ^ 63) % 2 ^ 64 - 2 ^ 63

/-- The order `ORDER BY run_at DESC`. -/
def runAtGE (a b : TaskResult) : Prop := b.RunAt ≤ a.RunAt

instance : DecidableRel runAtGE := fun a b => by
  unfold runAtGE
  infer_instance

/-- Modelled from the spec: the column `response_headers` of the table
`task_results`, declared in a migration that is not among the sources.  The
headers are "serialized as text" (section 3), so the column gives back the text
that was written into it. -/
def responseHeadersColumn (written : String) : String := written

/-- The header text `GetTaskResults` gives a row it scanned: the column's text,
the literal `null` for SQL NULL. -/
def scanResult (row : TaskResult) : TaskResult :=
  match row.ResponseHeaders with
  | some h => { row with ResponseHeaders := some (responseHeadersColumn h) }
  | none => { row with ResponseHeaders := some "null" }

/-- The method `Repository.GetTaskResults`: the count query, then the page query,
which the database refuses for a negative `LIMIT` or `OFFSET`. -/
def Repository.GetTaskResults (r : Repository) (taskID : UUID) (page limit : Int) :
    Repository × Except String (List TaskResult × Int) :=
  let page := if page == 0 then 1 else page
  let limit := if limit == 0 then 10 else limit
  let offset := wrapInt64 (wrapInt64 (page - 1) * limit)
  let (fault1, rest1) := nextFault r.queryFaults
  if fault1 then ({ r with queryFaults := rest1 }, .error "query failed")
  else
    let matching := r.results.filter (fun row => row.TaskID == taskID)
    let total : Int := matching.length
    let (fault2, rest2) := nextFault rest1
    let r2 := { r with queryFaults := rest2 }
    if fault2 || decide (limit < 0) || decide (offset < 0) then (r2, .error "query failed")
    else
      (r2, .ok ((((matching.insertionSort runAtGE).drop offset.toNat).take limit.toNat).map
        scanResult, total))

/-! ## The task service -/

structure CreateTaskRequest where
  Name : String
  Trigger : Trigger
  Action : Action
deriving DecidableEq, Repr

structure UpdateTaskRequest where
  Name : Option String
  Trigger : Option Trigger
  Action : Option Action
  Status : Option TaskStatus
deriving DecidableEq, Repr

/-- A call the task service makes to the scheduler. -/
inductive SchedulerCall where
  | scheduleTask (task : Task)
  | removeTask (id : UUID)
deriving DecidableEq, Repr

/-- The task service: the scheduler (which holds the repository both share), the
ids `uuid.New()` will return, and the log of the calls made to the scheduler. -/
structure TaskService where
  scheduler : Scheduler
  ids : List UUID
  calls : List SchedulerCall
deriving DecidableEq, Repr

/-- The parser `validateTrigger` builds for a cron trigger:
`cron.NewParser(cron.Second | cron.Minute | cron.Hour | cron.Dom | cron.Month |
cron.Dow | cron.Descriptor)`. -/
def validateTriggerParser (lib : CronLib) : String → Option String :=
  lib.newParser (ParseOption.Second ||| ParseOption.Minute ||| ParseOption.Hour |||
    ParseOption.Dom ||| ParseOption.Month ||| ParseOption.Dow ||| ParseOption.Descriptor)

/-- The method `TaskService.validateTrigger`: the error if any, and the clock,
which it reads for a one-off trigger with a timestamp. -/
def validateTrigger (lib : CronLib) (clock : List Time) (trigger : Trigger) :
    Option String × List Time :=
  if trigger.Kind == TriggerOneOff then
    match trigger.DateTime with
    | none => (some "datetime is required for one-off trigger", clock)
    | some dateTime =>
      let (now, clock1) := readClock clock
      if dateTime < now then (some "datetime must be in the future", clock1)
      else (none, clock1)
  else if trigger.Kind == TriggerCron then
    match trigger.Cron with
    | none => (some "cron expression is required for cron trigger", clock)
    | some expr =>
      match validateTriggerParser lib expr with
      | some err => (some ("invalid cron expression: " ++ err), clock)
      | none => (none, clock)
  else (some ("invalid trigger type: " ++ trigger.Kind), clock)

/-- The task `CreateTask` builds from the request, with its "next run" set for a
one-off trigger that has a timestamp. -/
def newTask (req : CreateTaskRequest) (id : UUID) (now : Time) : Task :=
  { ID := id, Name := req.Name, Trigger := req.Trigger, Action := req.Action,
    Status := StatusScheduled, CreatedAt := now, UpdatedAt := now,
    NextRun := if req.Trigger.Kind == TriggerOneOff && req.Trigger.DateTime.isSome
               then req.Trigger.DateTime else none }

/-- The method `TaskService.CreateTask`. -/
def TaskService.CreateTask (lib : CronLib)
    (svc : TaskService) (req : CreateTaskRequest) : TaskService × Except String Task :=
  match validateTrigger lib svc.scheduler.clock req.Trigger with
  | (some err, clock1) =>
    ({ svc with scheduler := { svc.scheduler with clock := clock1 } }, .error err)
  | (none, clock1) =>
    let (now, clock2) := readClock clock1
    let (id, ids) := newUUID svc.ids
    let task : Task := newTask req id now
    let (repo, err) := svc.scheduler.repo.CreateTask task
    let sched1 : Scheduler := { svc.scheduler with clock := clock2, repo := repo }
    if err then ({ svc with scheduler := sched1, ids := ids }, .error "insert failed")
    else
      match sched1.ScheduleTask lib task with
      | (sched2, task2, serr) =>
        let svc2 : TaskService :=
          { scheduler := sched2, ids := ids,
            calls := svc.calls ++ [SchedulerCall.scheduleTask task] }
        match serr with
        | some e => (svc2, .error ("failed to schedule task: " ++ e))
        | none => (svc2, .ok task2)

/-- The fields of the request that `UpdateTask` copies into the task after the
trigger was validated. -/
def applyUpdate (task : Task) (req : UpdateTaskRequest) : Task :=
  let t1 := match req.Name with
    | some name => { task with Name := name }
    | none => task
  let t2 := match req.Trigger with
    | some trigger =>
      { t1 with Trigger := trigger,
                NextRun := if trigger.Kind == TriggerOneOff && trigger.DateTime.isSome
                           then trigger.DateTime else t1.NextRun }
    | none => t1
  let t3 := match req.Action with
    | some action => { t2 with Action := action }
    | none => t2
  match req.Status with
  | some status => { t3 with Status := status }
  | none => t3

/-- The validation step of `UpdateTask`: `validateTrigger` on the trigger of the
request when it has one. -/
def validateUpdate (lib : CronLib) (clock : List Time)
    (req : UpdateTaskRequest) : Option String × List Time :=
  match req.Trigger with
  | some trigger => validateTrigger lib clock trigger
  | none => (none, clock)

/-- The task `UpdateTask` writes: the loaded task with the fields of the request
and a fresh `UpdatedAt`. -/
def updatedTask (task : Task) (req : UpdateTaskRequest) (now : Time) : Task :=
  { applyUpdate task req with UpdatedAt := now }

/-- The method `TaskService.UpdateTask`. -/
def TaskService.UpdateTask (lib : CronLib)
    (svc : TaskService) (id : UUID) (req : UpdateTaskRequest) : TaskService × Except String Task :=
  match svc.scheduler.repo.GetTaskByID id with
  | (repo0, .error err) => ({ svc with scheduler := { svc.scheduler with repo := repo0 } }, .error err)
  | (repo0, .ok task0) =>
    match validateUpdate lib svc.scheduler.clock req with
    | (some err, clock1) =>
      ({ svc with scheduler := { svc.scheduler with repo := repo0, clock := clock1 } }, .error err)
    | (none, clock1) =>
      let (now, clock2) := readClock clock1
      let task : Task := updatedTask task0 req now
      let (repo1, err) := repo0.UpdateTask task
      let sched1 : Scheduler := { svc.scheduler with repo := repo1, clock := clock2 }
      if err then ({ svc with scheduler := sched1 }, .error "update failed")
      else if task.Status == StatusScheduled then
        match sched1.ScheduleTask lib task with
        | (sched2, task2, serr) =>
          let svc2 : TaskService :=
            { svc with scheduler := sched2,
                       calls := svc.calls ++ [SchedulerCall.scheduleTask task] }
          match serr with
          | some e => (svc2, .error ("failed to reschedule task: " ++ e))
          | none => (svc2, .ok task2)
      else
        ({ svc with scheduler := sched1.RemoveTask task.ID,
                    calls := svc.calls ++ [SchedulerCall.removeTask task.ID] }, .ok task)

structure ListTasksParams where
  Page : Int
  Limit : Int
  Status : TaskStatus
deriving DecidableEq, Repr

structure ListResultsParams where
  Page : Int
  Limit : Int
  TaskID : Option UUID
  Success : Option Bool
  DateFrom : Option Time
  DateTo : Option Time
deriving DecidableEq, Repr

/-- The order `ORDER BY created_at DESC`. -/
def createdAtGE (a b : Task) : Prop := b.CreatedAt ≤ a.CreatedAt

instance : DecidableRel createdAtGE := fun a b => by
  unfold createdAtGE
  infer_instance

/-- The method `Repository.ListTasks`: the count query, then the page query,
which the database refuses for a negative `LIMIT` or `OFFSET`. -/
def Repository.ListTasks (r : Repository) (params : ListTasksParams) :
    Repository × Except String (List Task × Int) :=
  let page := if params.Page == 0 then 1 else params.Page
  let limit := if params.Limit == 0 then 10 else params.Limit
  let offset := wrapInt64 (wrapInt64 (page - 1) * limit)
  let matching :=
    if params.Status != "" then r.tasks.filter (fun row => row.Status == params.Status)
    else r.tasks
  let (fault1, rest1) := nextFault r.queryFaults
  if fault1 then ({ r with queryFaults := rest1 }, .error "query failed")
  else
    let total : Int := matching.length
    let (fault2, rest2) := nextFault rest1
    let r2 := { r with queryFaults := rest2 }
    if fault2 || decide (limit < 0) || decide (offset < 0) then (r2, .error "query failed")
    else
      (r2, .ok (((matching.insertionSort createdAtGE).drop offset.toNat).take limit.toNat, total))

/-- The `WHERE` clause of `Repository.ListAllResults`. -/
def resultMatches (params : ListResultsParams) (row : TaskResult) : Bool :=
  (match params.TaskID with
   | some id => row.TaskID == id
   | none => true) &&
  (match params.Success with
   | some ok => row.Success == ok
   | none => true) &&
  (match params.DateFrom with
   | some t => decide (t ≤ row.RunAt)
   | none => true) &&
  (match params.DateTo with
   | some t => decide (row.RunAt ≤ t)
   | none => true)

/-- The method `Repository.ListAllResults`. -/
def Repository.ListAllResults (r : Repository) (params : ListResultsParams) :
    Repository × Except String (List TaskResult × Int) :=
  let page := if params.Page == 0 then 1 else params.Page
  let limit := if params.Limit == 0 then 10 else params.Limit
  let offset := wrapInt64 (wrapInt64 (page - 1) * limit)
  let matching := r.results.filter (resultMatches params)
  let (fault1, rest1) := nextFault r.queryFaults
  if fault1 then ({ r with queryFaults := rest1 }, .error "query failed")
  else
    let total : Int := matching.length
    let (fault2, rest2) := nextFault rest1
    let r2 := { r with queryFaults := rest2 }
    if fault2 || decide (limit < 0) || decide (offset < 0) then (r2, .error "query failed")
    else
      (r2, .ok ((((matching.insertionSort runAtGE).drop offset.toNat).take limit.toNat).map
        scanResult, total))

structure PaginationMeta where
  Page : Int
  Limit : Int
  Total : Int
  TotalPages : Int
deriving DecidableEq, Repr

/-- The function `CalculatePaginationMeta`; `none` is the run-time panic of an
integer division by zero.  `/` and `%` on Go integers truncate toward zero. -/
def CalculatePaginationMeta (page limit total : Int) : Option PaginationMeta :=
  if limit == 0 then none
  else
    let totalPages := wrapInt64 (total.tdiv limit)
    let totalPages := if total.tmod limit > 0 then wrapInt64 (totalPages + 1) else totalPages
    some { Page := page, Limit := limit, Total := total, TotalPages := totalPages }

/-- What a list handler answers: a panic inside the handler, an error response
with its status code, or the data with its pagination metadata. -/
inductive ListResponse (α : Type) where
  | panic
  | failure (statusCode : Nat)
  | success (data : List α) (meta : PaginationMeta)

/-- The end of the three list handlers: the metadata for the page, then the
response. -/
def respondWithMeta {α : Type} (page limit total : Int) (data : List α) : ListResponse α :=
  match CalculatePaginationMeta page limit total with
  | none => .panic
  | some meta => .success data meta

/-- The handler `TaskHandler.ListTasks`.  `bound` is what the query binder made of
the query string, `none` when a value does not parse; the tag `max=100` on
`Limit` is checked here. -/
def TaskHandler.ListTasks (r : Repository) (bound : Option ListTasksParams) :
    Repository × ListResponse Task :=
  match bound with
  | none => (r, .failure 400)
  | some params =>
    if params.Limit > 100 then (r, .failure 400)
    else
      let page := if params.Page == 0 then 1 else params.Page
      let limit := if params.Limit == 0 then 10 else params.Limit
      match r.ListTasks { params with Page := page, Limit := limit } with
      | (r1, .error _) => (r1, .failure 500)
      | (r1, .ok (tasks, total)) => (r1, respondWithMeta page limit total tasks)

/-- The page and the limit `TaskHandler.GetTaskResults` takes from the query
strings; `atoi` is `strconv.Atoi`, an absent parameter is the empty string. -/
def parsePageLimit (atoi : String → Option Int) (pageStr limitStr : String) : Int × Int :=
  let page : Int :=
    if pageStr != "" then
      match atoi pageStr with
      | some p => if p > 0 then p else 1
      | none => 1
    else 1
  let limit : Int :=
    if limitStr != "" then
      match atoi limitStr with
      | some l => if l > 0 && l ≤ 100 then l else 10
      | none => 10
    else 10
  (page, limit)

/-- The handler `TaskHandler.GetTaskResults`; `id` is the outcome of `uuid.Parse`
on the path parameter. -/
def TaskHandler.GetTaskResults (atoi : String → Option Int) (r : Repository)
    (id : Option UUID) (pageStr limitStr : String) : Repository × ListResponse TaskResult :=
  match id with
  | none => (r, .failure 400)
  | some taskID =>
    match r.GetTaskResults taskID (parsePageLimit atoi pageStr limitStr).1
        (parsePageLimit atoi pageStr limitStr).2 with
    | (r1, .error _) => (r1, .failure 500)
    | (r1, .ok (results, total)) =>
      (r1, respondWithMeta (parsePageLimit atoi pageStr limitStr).1
        (parsePageLimit atoi pageStr limitStr).2 total results)

/-- The handler `ResultHandler.ListResults`; `taskID` is the outcome of
`uuid.Parse` on the query parameter `task_id` when that is present and parses. -/
def ResultHandler.ListResults (r : Repository) (bound : Option ListResultsParams)
    (taskID : Option UUID) : Repository × ListResponse TaskResult :=
  match bound with
  | none => (r, .failure 400)
  | some params =>
    if params.Limit > 100 then (r, .failure 400)
    else
      let page := if params.Page == 0 then 1 else params.Page
      let limit := if params.Limit == 0 then 10 else params.Limit
      let filter := match taskID with
        | some id => some id
        | none => params.TaskID
      match r.ListAllResults { params with Page := page, Limit := limit, TaskID := filter } with
      | (r1, .error _) => (r1, .failure 500)
      | (r1, .ok (results, total)) => (r1, respondWithMeta page limit total results)

/-! ## Observations on traces -/

/-- The effects appended to the trace between two states. -/
def effectsSince (before after : Scheduler) : List Effect :=
  after.trace.drop before.trace.length

/-- The effect starts an execution of the task with this id. -/
def Effect.isDispatchOf (id : UUID) : Effect → Bool
  | .dispatch task => task.ID == id
  | _ => false

/-- The effect is an `UpdateTask` call for this id that moves the status away from
`scheduled`. -/
def Effect.isClaimOf (id : UUID) : Effect → Bool
  | .updateTask task _ => task.ID == id && task.Status != StatusScheduled
  | _ => false

/-- The effect is an `UpdateTask` call for this id that returned an error. -/
def Effect.isFailedUpdateOf (id : UUID) : Effect → Bool
  | .updateTask task err => task.ID == id && err
  | _ => false

/-- The effect is a `CreateTaskResult` call. -/
def Effect.isCreateTaskResult : Effect → Bool
  | .createTaskResult _ _ => true
  | _ => false

/-- Number of executions of the id started in a trace. -/
def dispatchCount (es : List Effect) (id : UUID) : Nat :=
  es.countP (Effect.isDispatchOf id)

/-- Number of failed `UpdateTask` calls for the id in a trace. -/
def failedUpdateCount (es : List Effect) (id : UUID) : Nat :=
  es.countP (Effect.isFailedUpdateOf id)

/-- No row of the `tasks` table with this id has status `scheduled`. -/
def Repository.notScheduled (r : Repository) (id : UUID) : Prop :=
  ∀ row ∈ r.tasks, row.ID = id → row.Status ≠ StatusScheduled

/-- The effects of the loop of `checkOneOffTasks` over a task list: nothing for
a task that is not due, and for a due one the dispatch directly followed by the
update that marks it completed. -/
inductive TickEffects (now : Time) : List Task → List Effect → Prop where
  | nil : TickEffects now [] []
  | skip {task : Task} {tasks : List Task} {es : List Effect} :
      isDue now task = false → TickEffects now tasks es → TickEffects now (task :: tasks) es
  | fire {task : Task} {tasks : List Task} {es : List Effect} (stamp : Time) (err : Bool) :
      isDue now task = true → TickEffects now tasks es →
      TickEffects now (task :: tasks)
        (Effect.dispatch task :: Effect.updateTask (markCompleted task stamp) err :: es)

/-! ## Worked examples -/

/-- A library for the worked examples: a parser built with the flag `Second`
accepts the six-field expression, one built without it the five-field one. -/
def exampleLib : CronLib :=
  { newParser := fun options spec =>
      if options &&& ParseOption.Second = 0 then
        if spec = "*/5 * * * *" then none else some "bad expression"
      else if spec = "*/5 * * * * *" then none else some "bad expression",
    next := fun _ now => now + 5 }

def exampleAction : Action :=
  { Method := "POST", URL := "http://localhost/hook", Headers := none, Payload := none }

def exampleCronTask : Task :=
  { ID := 7, Name := "ping", Trigger := { Kind := TriggerCron, DateTime := none,
                                           Cron := some "*/5 * * * * *" },
    Action := exampleAction, Status := StatusScheduled, CreatedAt := 10, UpdatedAt := 10,
    NextRun := none }

def emptyRepo : Repository := { tasks := [], results := [], queryFaults := [], execFaults := [] }


def exampleOneOffTask : Task :=
  { ID := 1, Name := "once", Trigger := { Kind := TriggerOneOff, DateTime := some 100,
                                           Cron := none },
    Action := exampleAction, Status := StatusScheduled, CreatedAt := 10, UpdatedAt := 10,
    NextRun := some 100 }

/-- A store holding the one-off example, whose first `Exec` call will fail. -/
def faultyRepo : Repository :=
  { tasks := [exampleOneOffTask], results := [], queryFaults := [], execFaults := [true] }

/-- A store holding the one-off example and the cron example, without faults. -/
def exampleRepo : Repository :=
  { tasks := [exampleOneOffTask, { exampleCronTask with NextRun := some 50 }], results := [],
    queryFaults := [], execFaults := [] }

/-- A stand-in for the HTTP libraries: one method is refused by the request
constructor, one host cannot be reached, every other request is answered
with status 200. -/
def exampleHTTP : HTTP :=
  { canonicalKey := fun k => if k = "content-type" then "Content-Type" else k,
    newRequest := fun method _ => if method = "BAD METHOD" then some "invalid method" else none,
    roundTrip := fun req =>
      if req.URL = "http://unreachable.invalid/" then .error "no such host"
      else .ok { StatusCode := 200, Header := some [("Content-Type", ["text/plain"])],
                 Body := "pong", ReadErr := none },
    marshal := fun _ => .ok "\x7b\"Content-Type\":[\"text/plain\"]\x7d" }

/-- A server that answers with status 200 and drops the connection while the
body is read. -/
def droppedBodyHTTP : HTTP :=
  { exampleHTTP with
    roundTrip := fun _ =>
      .ok { StatusCode := 200, Header := some [("Content-Type", ["text/plain"])],
            Body := "pong", ReadErr := some "unexpected EOF" } }

def exampleExecutor : Executor :=
  { repo := emptyRepo, clock := [1000000, 1000001, 6000000], ids := [42], trace := [] }

/-- An action that supplies a content type with an empty value next to a payload. -/
def emptyContentTypeAction : Action :=
  { Method := "POST", URL := "http://localhost/hook",
    Headers := some [("Content-Type", "")], Payload := some "\x7b\x7d" }

/-- An action whose header map holds two keys that canonicalise to
`Content-Type`; the one with the empty value is visited last. -/
def twoContentTypesAction : Action :=
  { Method := "POST", URL := "http://localhost/hook",
    Headers := some [("content-type", "text/xml"), ("Content-Type", "")],
    Payload := some "<a/>" }

/-- An action that supplies its own content type next to a payload. -/
def xmlAction : Action :=
  { Method := "POST", URL := "http://localhost/hook",
    Headers := some [("content-type", "text/xml")], Payload := some "<a/>" }

/-- A task whose host cannot be reached. -/
def unreachableTask : Task :=
  { exampleOneOffTask with
    Action := { exampleAction with URL := "http://unreachable.invalid/" } }


/-- A task whose trigger kind is neither `cron` nor `one-off`. -/
def weeklyTask : Task :=
  { exampleCronTask with Trigger := { Kind := "weekly", DateTime := none, Cron := none } }

/-- A cron task whose expression the example parser refuses. -/
def badCronTask : Task :=
  { exampleCronTask with
    ID := 8, Trigger := { Kind := TriggerCron, DateTime := none, Cron := some "every day" } }

/-- A task of kind `cron` that carries no expression. -/
def cronWithoutExpression : Task :=
  { exampleCronTask with Trigger := { Kind := TriggerCron, DateTime := none, Cron := none } }

/-- A scheduler in which the cron example is registered on a running engine. -/
def runningScheduler : Scheduler :=
  { cron := { entries := [{ ID := 1, spec := "*/5 * * * * *", Next := 15, job := exampleCronTask }],
              nextID := 1, running := true },
    repo := exampleRepo, jobs := [(7, 1)], clock := [20, 21, 22], trace := [] }

/-- The one-off example rescheduled with a cron trigger, under the same id. -/
def rescheduledAsCron : Task :=
  { exampleOneOffTask with
    Trigger := { Kind := TriggerCron, DateTime := none, Cron := some "*/5 * * * * *" } }

def createCronRequest : CreateTaskRequest :=
  { Name := "ping", Trigger := exampleCronTask.Trigger, Action := exampleAction }

/-- A result whose response carried an empty header map. -/
def emptyObjectResult : TaskResult :=
  { ID := 42, TaskID := 1, RunAt := 1000, StatusCode := 200, Success := true,
    ResponseHeaders := some "\x7b\x7d", ResponseBody := "pong", ErrorMessage := none,
    DurationMs := 5, CreatedAt := 1001 }

/-- The one-off example rescheduled with a cron trigger whose expression the
example parser refuses, under the same id. -/
def rescheduledWithBadCron : Task :=
  { exampleOneOffTask with
    Trigger := { Kind := TriggerCron, DateTime := none, Cron := some "every day" } }

/-- The scheduler after the one-off example was scheduled under a cron trigger
while the store, whose update failed, still holds it as a due one-off task. -/
def registeredButDue : Scheduler :=
  ((NewScheduler faultyRepo [150, 151]).ScheduleTask exampleLib rescheduledAsCron).1

/-- The cron example with the trigger of the one-off example, as an update of
the task service writes it to the store. -/
def cronTurnedOneOff : Task :=
  { exampleCronTask with Trigger := exampleOneOffTask.Trigger, NextRun := some 100 }

/-- An interleaving of `TaskService.UpdateTask` with the worker: the cron example
is registered, the service writes its new one-off trigger to the store, and a
tick runs before the service reaches its `ScheduleTask` call. -/
def tickBeforeReschedule : Scheduler :=
  ({ ((NewScheduler { emptyRepo with tasks := [exampleCronTask] } [150, 151]).ScheduleTask
        exampleLib exampleCronTask).1 with
     repo := (((NewScheduler { emptyRepo with tasks := [exampleCronTask] } [150, 151]).ScheduleTask
        exampleLib exampleCronTask).1.repo.UpdateTask cronTurnedOneOff).1 }
    : Scheduler).checkOneOffTasks

/-! ## Lemmas on the job registry -/

theorem Jobs.countFor_delete (m : Jobs) (id : UUID) : (m.delete id).countFor id = 0 := by
  simp [Jobs.delete, Jobs.countFor, List.filter_filter]

theorem Jobs.countFor_set (m : Jobs) (id : UUID) (e : EntryID) :
    (m.set id e).countFor id = 1 := by
  have h := Jobs.countFor_delete m id
  simp only [Jobs.countFor] at h
  simp [Jobs.set, Jobs.countFor, List.filter_append, h]

theorem Jobs.length_delete_add_countFor (m : Jobs) (id : UUID) :
    (m.delete id).length + m.countFor id = m.length := by
  induction m with
  | nil => rfl
  | cons p m ih =>
    simp only [Jobs.delete, Jobs.countFor] at ih
    by_cases h : p.1 = id
    · simp [Jobs.delete, Jobs.countFor, h]
      omega
    · simp [Jobs.delete, Jobs.countFor, h]
      omega

theorem Jobs.get_eq_none_iff (m : Jobs) (id : UUID) :
    m.get id = none ↔ ∀ p ∈ m, p.1 ≠ id := by
  simp [Jobs.get, List.find?_eq_none]

theorem Jobs.delete_of_get_none (m : Jobs) (id : UUID) (h : m.get id = none) :
    m.delete id = m := by
  rw [Jobs.get_eq_none_iff] at h
  simp only [Jobs.delete, List.filter_eq_self]
  intro p hp
  simpa using h p hp

theorem Jobs.get_delete (m : Jobs) (id : UUID) : (m.delete id).get id = none := by
  rw [Jobs.get_eq_none_iff]
  intro p hp
  simp only [Jobs.delete, List.mem_filter] at hp
  simpa using hp.2

theorem Scheduler.unregister_jobs (s : Scheduler) (id : UUID) :
    (s.unregister id).jobs = s.jobs.delete id := by
  unfold Scheduler.unregister
  cases h : s.jobs.get id with
  | none => simp [Jobs.delete_of_get_none s.jobs id h]
  | some e => rfl

/-! ## Scheduling a cron task -/

theorem Scheduler.persist_jobs (s : Scheduler) (task : Task) : (s.persist task).jobs = s.jobs := rfl

theorem Scheduler.persist_cron (s : Scheduler) (task : Task) : (s.persist task).cron = s.cron := rfl

/-- What `ScheduleTask` leaves in the registry and returns for a cron trigger
whose expression parses. -/
theorem Scheduler.ScheduleTask_cron_accepted (lib : CronLib) (s : Scheduler) (task : Task)
    (expr : String) (hk : task.Trigger.Kind = TriggerCron) (hc : task.Trigger.Cron = some expr)
    (hp : lib.parse expr = none) :
    (s.ScheduleTask lib task).1.jobs
        = (s.jobs.delete task.ID).set task.ID ((s.unregister task.ID).cron.nextID + 1)
      ∧ (s.ScheduleTask lib task).2.2 = none := by
  have hj := Scheduler.unregister_jobs s task.ID
  unfold Scheduler.ScheduleTask Scheduler.scheduleCronTask Cron.AddFunc
  simp only [hk, hc, hp, beq_self_eq_true, if_true]
  by_cases hr : (s.unregister task.ID).cron.running = true
  · simp [hr, Scheduler.persist_jobs, hj]
  · simp [hr, Scheduler.persist_jobs, hj]

/-- C1: for every scheduler state and every task with a cron trigger whose
expression the engine's parser accepts, after `ScheduleTask` the job registry
holds exactly one entry for the task's id; a second `ScheduleTask` for the same
id (again with an accepted cron trigger) leaves the number of registry entries
unchanged and still holds exactly one entry for the id. -/
theorem ScheduleTask_cron_single_entry (lib : CronLib) (s : Scheduler) (task : Task)
    (expr : String) (hk : task.Trigger.Kind = TriggerCron) (hc : task.Trigger.Cron = some expr)
    (hp : lib.parse expr = none) :
    (s.ScheduleTask lib task).1.jobs.countFor task.ID = 1 ∧
    ∀ (task2 : Task) (expr2 : String), task2.ID = task.ID →
      task2.Trigger.Kind = TriggerCron → task2.Trigger.Cron = some expr2 →
      lib.parse expr2 = none →
      (((s.ScheduleTask lib task).1.ScheduleTask lib task2).1.jobs.length
          = (s.ScheduleTask lib task).1.jobs.length ∧
        ((s.ScheduleTask lib task).1.ScheduleTask lib task2).1.jobs.countFor task.ID = 1) := by
  have h1 := (Scheduler.ScheduleTask_cron_accepted lib s task expr hk hc hp).1
  have hcount : (s.ScheduleTask lib task).1.jobs.countFor task.ID = 1 := by
    rw [h1]; exact Jobs.countFor_set _ _ _
  refine ⟨hcount, ?_⟩
  intro task2 expr2 hid hk2 hc2 hp2
  have h2 := (Scheduler.ScheduleTask_cron_accepted lib (s.ScheduleTask lib task).1 task2 expr2
    hk2 hc2 hp2).1
  rw [hid] at h2
  constructor
  · have hlen := Jobs.length_delete_add_countFor (s.ScheduleTask lib task).1.jobs task.ID
    rw [h2]
    simp only [Jobs.set, List.length_append, List.length_singleton,
      Jobs.delete_of_get_none _ _ (Jobs.get_delete (s.ScheduleTask lib task).1.jobs task.ID)]
    omega
  · rw [h2]; exact Jobs.countFor_set _ _ _

theorem ScheduleTask_cron_single_entry_witness :
    ((NewScheduler emptyRepo []).ScheduleTask exampleLib exampleCronTask).1.jobs.countFor 7 = 1 :=
  (ScheduleTask_cron_single_entry exampleLib (NewScheduler emptyRepo []) exampleCronTask
    "*/5 * * * * *" rfl rfl (by decide)).1

/-! ## Removing a task -/

/-- C2: `RemoveTask` is idempotent on the whole scheduler state (registry, engine
entries and everything else), and on an id without a registry entry it changes
nothing; it is a total function with no error to return. -/
theorem RemoveTask_idempotent (s : Scheduler) (id : UUID) :
    (s.RemoveTask id).RemoveTask id = s.RemoveTask id ∧
    (s.jobs.get id = none → s.RemoveTask id = s) := by
  have hnone : ∀ t : Scheduler, t.jobs.get id = none → t.RemoveTask id = t := by
    intro t ht
    simp [Scheduler.RemoveTask, Scheduler.unregister, ht]
  refine ⟨?_, hnone s⟩
  apply hnone
  show (s.unregister id).jobs.get id = none
  rw [Scheduler.unregister_jobs]
  exact Jobs.get_delete _ _

theorem RemoveTask_idempotent_witness :
    (NewScheduler emptyRepo []).jobs.get 7 = none ∧
      (NewScheduler emptyRepo []).RemoveTask 7 = NewScheduler emptyRepo [] :=
  ⟨rfl, (RemoveTask_idempotent (NewScheduler emptyRepo []) 7).2 rfl⟩

/-! ## One tick of the one-off worker: its effects -/

theorem isDue_iff (now : Time) (task : Task) :
    isDue now task = true ↔
      task.Trigger.Kind = TriggerOneOff ∧ ∃ n, task.NextRun = some n ∧ n < now := by
  unfold isDue
  cases h : task.NextRun with
  | none => simp
  | some n => simp

theorem markCompleted_ID (task : Task) (stamp : Time) : (markCompleted task stamp).ID = task.ID :=
  rfl

theorem markCompleted_Status (task : Task) (stamp : Time) :
    (markCompleted task stamp).Status = StatusCompleted := rfl

theorem Scheduler.checkOneOffStep_not_due (now : Time) (s : Scheduler) (task : Task)
    (h : isDue now task = false) : s.checkOneOffStep now task = s := by
  simp [Scheduler.checkOneOffStep, h]

theorem Scheduler.checkOneOffStep_due (now : Time) (s : Scheduler) (task : Task)
    (h : isDue now task = true) :
    s.checkOneOffStep now task =
      { cron := s.cron,
        repo := (s.repo.UpdateTask (markCompleted task (readClock s.clock).1)).1,
        jobs := s.jobs.delete task.ID,
        clock := (readClock s.clock).2,
        trace := s.trace ++ [Effect.dispatch task,
          Effect.updateTask (markCompleted task (readClock s.clock).1)
            (s.repo.UpdateTask (markCompleted task (readClock s.clock).1)).2] } := by
  simp [Scheduler.checkOneOffStep, h, Scheduler.persist]

theorem Scheduler.checkOneOffLoop_trace (now : Time) (tasks : List Task) :
    ∀ s : Scheduler, ∃ es, (tasks.foldl (Scheduler.checkOneOffStep now) s).trace = s.trace ++ es ∧
      TickEffects now tasks es := by
  induction tasks with
  | nil => intro s; exact ⟨[], by simp, TickEffects.nil⟩
  | cons t ts ih =>
    intro s
    cases hd : isDue now t with
    | false =>
      obtain ⟨es, h1, h2⟩ := ih s
      refine ⟨es, ?_, TickEffects.skip hd h2⟩
      simpa [List.foldl, Scheduler.checkOneOffStep_not_due now s t hd] using h1
    | true =>
      obtain ⟨es, h1, h2⟩ := ih (s.checkOneOffStep now t)
      refine ⟨_, ?_, TickEffects.fire (readClock s.clock).1
        (s.repo.UpdateTask (markCompleted t (readClock s.clock).1)).2 hd h2⟩
      rw [List.foldl, h1, Scheduler.checkOneOffStep_due now s t hd]
      simp

/-- The effects of a tick whose query returned `tasks`. -/
theorem Scheduler.checkOneOffTasks_effects (s : Scheduler) (repo : Repository)
    (tasks : List Task) (hq : s.repo.GetScheduledTasks = (repo, .ok tasks)) :
    TickEffects (readClock s.clock).1 tasks (effectsSince s s.checkOneOffTasks) := by
  obtain ⟨es, h1, h2⟩ := Scheduler.checkOneOffLoop_trace (readClock s.clock).1 tasks
    { s with repo := repo, clock := (readClock s.clock).2 }
  have h3 : s.checkOneOffTasks.trace = s.trace ++ es := by
    unfold Scheduler.checkOneOffTasks
    rw [hq]
    exact h1
  simpa [effectsSince, h3] using h2

theorem TickEffects.dispatch_mem {now : Time} {tasks : List Task} {es : List Effect}
    (h : TickEffects now tasks es) (t : Task) :
    Effect.dispatch t ∈ es ↔ t ∈ tasks ∧ isDue now t = true := by
  induction h with
  | nil => simp
  | @skip task tasks es hd _ ih =>
    rw [ih, List.mem_cons]
    constructor
    · rintro ⟨h1, h2⟩; exact ⟨Or.inr h1, h2⟩
    · rintro ⟨h1 | h1, h2⟩
      · rw [h1, hd] at h2; cases h2
      · exact ⟨h1, h2⟩
  | @fire task tasks es stamp err hd _ ih =>
    simp only [List.mem_cons, Effect.dispatch.injEq, ih, reduceCtorEq, false_or]
    constructor
    · rintro (h1 | ⟨h1, h2⟩)
      · exact ⟨Or.inl h1, h1 ▸ hd⟩
      · exact ⟨Or.inr h1, h2⟩
    · rintro ⟨h1 | h1, h2⟩
      · exact Or.inl h1
      · exact Or.inr ⟨h1, h2⟩

theorem TickEffects.update_mem {now : Time} {tasks : List Task} {es : List Effect}
    (h : TickEffects now tasks es) (u : Task) (err : Bool)
    (hu : Effect.updateTask u err ∈ es) :
    ∃ t ∈ tasks, isDue now t = true ∧ ∃ stamp, u = markCompleted t stamp := by
  induction h with
  | nil => simp at hu
  | @skip task tasks es _ _ ih =>
    obtain ⟨t, h1, h2⟩ := ih hu
    exact ⟨t, List.mem_cons_of_mem _ h1, h2⟩
  | @fire task tasks es stamp err1 hd _ ih =>
    simp only [List.mem_cons, reduceCtorEq, Effect.updateTask.injEq, false_or] at hu
    rcases hu with ⟨h1, _⟩ | hu
    · exact ⟨task, List.mem_cons_self _ _, hd, stamp, h1⟩
    · obtain ⟨t, h1, h2⟩ := ih hu
      exact ⟨t, List.mem_cons_of_mem _ h1, h2⟩

theorem TickEffects.fired_mem {now : Time} {tasks : List Task} {es : List Effect}
    (h : TickEffects now tasks es) (t : Task) (ht : t ∈ tasks) (hd : isDue now t = true) :
    ∃ stamp err, Effect.updateTask (markCompleted t stamp) err ∈ es := by
  induction h with
  | nil => simp at ht
  | @skip task tasks es hd1 _ ih =>
    rcases List.mem_cons.1 ht with h1 | h1
    · rw [h1, hd1] at hd; cases hd
    · exact ih h1
  | @fire task tasks es stamp err _ _ ih =>
    rcases List.mem_cons.1 ht with h1 | h1
    · exact ⟨stamp, err, by simp [h1]⟩
    · obtain ⟨st, e, h2⟩ := ih h1
      exact ⟨st, e, by simp [h2]⟩

theorem TickEffects.order {now : Time} {tasks : List Task} {es : List Effect}
    (h : TickEffects now tasks es) (t : Task) (ht : t ∈ tasks) (hd : isDue now t = true) :
    es.findIdx (Effect.isClaimOf t.ID) < es.length ∧
      es.findIdx (Effect.isClaimOf t.ID) = es.findIdx (Effect.isDispatchOf t.ID) + 1 := by
  induction h with
  | nil => simp at ht
  | @skip task tasks es hd1 _ ih =>
    rcases List.mem_cons.1 ht with h1 | h1
    · rw [h1, hd1] at hd; cases hd
    · exact ih h1
  | @fire task tasks es stamp err _ _ ih =>
    by_cases hid : task.ID = t.ID
    · simp [List.findIdx_cons, Effect.isDispatchOf, Effect.isClaimOf, hid, markCompleted,
        StatusCompleted, StatusScheduled]
    · have h1 : t ∈ tasks := by
        rcases List.mem_cons.1 ht with h1 | h1
        · exact absurd (h1 ▸ rfl) hid
        · exact h1
      obtain ⟨h2, h3⟩ := ih h1
      have hb : (task.ID == t.ID) = false := by simpa using hid
      simp only [List.findIdx_cons, Effect.isDispatchOf, Effect.isClaimOf, markCompleted, hb,
        Bool.false_and, cond_false, List.length_cons]
      exact ⟨Nat.add_lt_add_right (Nat.add_lt_add_right h2 1) 1, by rw [h3]⟩

theorem TickEffects.dispatchCount_absent {now : Time} {tasks : List Task} {es : List Effect}
    (h : TickEffects now tasks es) (id : UUID) (hid : id ∉ tasks.map Task.ID) :
    dispatchCount es id = 0 := by
  induction h with
  | nil => rfl
  | @skip task tasks es _ _ ih =>
    simp only [List.map_cons, List.mem_cons, not_or] at hid
    exact ih hid.2
  | @fire task tasks es stamp err _ _ ih =>
    simp only [List.map_cons, List.mem_cons, not_or] at hid
    have h1 := ih hid.2
    have h2 : ¬ task.ID = id := fun h => hid.1 h.symm
    simp only [dispatchCount] at h1
    simp [dispatchCount, List.countP_cons, Effect.isDispatchOf, h1, h2]

theorem TickEffects.dispatchCount_one {now : Time} {tasks : List Task} {es : List Effect}
    (h : TickEffects now tasks es) (hn : (tasks.map Task.ID).Nodup) (t : Task) (ht : t ∈ tasks)
    (hd : isDue now t = true) : dispatchCount es t.ID = 1 := by
  induction h with
  | nil => simp at ht
  | @skip task tasks es hd1 _ ih =>
    rcases List.mem_cons.1 ht with h1 | h1
    · rw [h1, hd1] at hd; cases hd
    · exact ih (List.nodup_cons.1 hn).2 h1
  | @fire task tasks es stamp err _ htail ih =>
    rw [List.map_cons, List.nodup_cons] at hn
    by_cases hid : task.ID = t.ID
    · have h1 := htail.dispatchCount_absent t.ID (hid ▸ hn.1)
      simp only [dispatchCount] at h1
      simp [dispatchCount, List.countP_cons, Effect.isDispatchOf, hid, h1]
    · have h1 : t ∈ tasks := by
        rcases List.mem_cons.1 ht with h1 | h1
        · exact absurd (h1 ▸ rfl) hid
        · exact h1
      have h2 := ih hn.2 h1
      simp only [dispatchCount] at h2
      simp [dispatchCount, List.countP_cons, Effect.isDispatchOf, hid, h2]

theorem Jobs.get_delete_of_none (m : Jobs) (id other : UUID) (h : m.get id = none) :
    (m.delete other).get id = none := by
  rw [Jobs.get_eq_none_iff] at h ⊢
  intro p hp
  exact h p (List.mem_filter.1 hp).1

theorem Scheduler.checkOneOffLoop_jobs (now : Time) (tasks : List Task) :
    ∀ s : Scheduler,
      (∀ id, s.jobs.get id = none →
        (tasks.foldl (Scheduler.checkOneOffStep now) s).jobs.get id = none) ∧
      (∀ t ∈ tasks, isDue now t = true →
        (tasks.foldl (Scheduler.checkOneOffStep now) s).jobs.get t.ID = none) := by
  induction tasks with
  | nil => intro s; simp
  | cons t ts ih =>
    intro s
    have hstep : ∀ id, s.jobs.get id = none → (s.checkOneOffStep now t).jobs.get id = none := by
      intro id hid
      cases hd : isDue now t with
      | false => rw [Scheduler.checkOneOffStep_not_due now s t hd]; exact hid
      | true =>
        rw [Scheduler.checkOneOffStep_due now s t hd]
        exact Jobs.get_delete_of_none _ _ _ hid
    obtain ⟨ih1, ih2⟩ := ih (s.checkOneOffStep now t)
    refine ⟨fun id hid => ih1 id (hstep id hid), ?_⟩
    intro u hu hdu
    rcases List.mem_cons.1 hu with h1 | h1
    · apply ih1
      rw [h1, Scheduler.checkOneOffStep_due now s t (h1 ▸ hdu)]
      exact Jobs.get_delete _ _
    · exact ih2 u h1 hdu

theorem Scheduler.checkOneOffTasks_jobs (s : Scheduler) (repo : Repository)
    (tasks : List Task) (hq : s.repo.GetScheduledTasks = (repo, .ok tasks)) (t : Task)
    (ht : t ∈ tasks) (hd : isDue (readClock s.clock).1 t = true) :
    s.checkOneOffTasks.jobs.get t.ID = none := by
  unfold Scheduler.checkOneOffTasks
  rw [hq]
  exact (Scheduler.checkOneOffLoop_jobs (readClock s.clock).1 tasks _).2 t ht hd

/-! ## What the store returns to a tick -/

theorem Repository.GetScheduledTasks_ok (r repo : Repository) (tasks : List Task)
    (hq : r.GetScheduledTasks = (repo, .ok tasks)) :
    tasks = (r.tasks.filter (fun t => t.Status == StatusScheduled)).insertionSort nextRunLE ∧
      repo.tasks = r.tasks ∧ repo.execFaults = r.execFaults ∧ repo.results = r.results := by
  unfold Repository.GetScheduledTasks at hq
  cases hf : (nextFault r.queryFaults).1 with
  | true => simp [hf] at hq
  | false =>
    simp only [hf, Bool.false_eq_true, if_false, Prod.mk.injEq, Except.ok.injEq] at hq
    obtain ⟨h1, h2⟩ := hq
    subst h1
    exact ⟨h2.symm, rfl, rfl, rfl⟩

theorem Repository.GetScheduledTasks_mem (r repo : Repository) (tasks : List Task)
    (hq : r.GetScheduledTasks = (repo, .ok tasks)) (t : Task) :
    t ∈ tasks ↔ t ∈ r.tasks ∧ t.Status = StatusScheduled := by
  rw [(Repository.GetScheduledTasks_ok r repo tasks hq).1,
    (List.perm_insertionSort nextRunLE _).mem_iff]
  simp [List.mem_filter]

theorem Repository.GetScheduledTasks_nodup (r repo : Repository) (tasks : List Task)
    (hq : r.GetScheduledTasks = (repo, .ok tasks)) (hn : (r.tasks.map Task.ID).Nodup) :
    (tasks.map Task.ID).Nodup := by
  rw [(Repository.GetScheduledTasks_ok r repo tasks hq).1]
  have hperm := (List.perm_insertionSort nextRunLE
    (r.tasks.filter (fun t => t.Status == StatusScheduled))).map Task.ID
  rw [hperm.nodup_iff]
  exact hn.sublist ((List.filter_sublist _).map Task.ID)

/-! ## The claims on one tick -/

/-- C4, as the code has it: in a tick, for every due one-off task the dispatch of
its execution comes first and the store update that moves its status away from
`scheduled` is the very next effect; the update follows the dispatch, it does
not precede it. -/
theorem checkOneOffTasks_dispatch_then_claim (s : Scheduler) (repo : Repository)
    (tasks : List Task) (hq : s.repo.GetScheduledTasks = (repo, .ok tasks)) (t : Task)
    (ht : t ∈ tasks) (hd : isDue (readClock s.clock).1 t = true) :
    (effectsSince s s.checkOneOffTasks).findIdx (Effect.isClaimOf t.ID)
        < (effectsSince s s.checkOneOffTasks).length ∧
      (effectsSince s s.checkOneOffTasks).findIdx (Effect.isClaimOf t.ID)
        = (effectsSince s s.checkOneOffTasks).findIdx (Effect.isDispatchOf t.ID) + 1 :=
  (Scheduler.checkOneOffTasks_effects s repo tasks hq).order t ht hd

theorem checkOneOffTasks_dispatch_then_claim_witness :
    (effectsSince (NewScheduler exampleRepo [101, 151])
        (NewScheduler exampleRepo [101, 151]).checkOneOffTasks).findIdx (Effect.isClaimOf 1)
        < (effectsSince (NewScheduler exampleRepo [101, 151])
            (NewScheduler exampleRepo [101, 151]).checkOneOffTasks).length ∧
      (effectsSince (NewScheduler exampleRepo [101, 151])
        (NewScheduler exampleRepo [101, 151]).checkOneOffTasks).findIdx (Effect.isClaimOf 1)
        = (effectsSince (NewScheduler exampleRepo [101, 151])
            (NewScheduler exampleRepo [101, 151]).checkOneOffTasks).findIdx
              (Effect.isDispatchOf 1) + 1 :=
  checkOneOffTasks_dispatch_then_claim (NewScheduler exampleRepo [101, 151]) exampleRepo
    [{ exampleCronTask with NextRun := some 50 }, exampleOneOffTask] rfl exampleOneOffTask
    (by decide) (by decide)

/-- C4 as stated fails: in the tick at time 101 over the example store the due
one-off task 1 is dispatched at position 0 of the tick's effects and its status
is updated at position 1, after the dispatch and not before or with it. -/
theorem checkOneOffTasks_claim_not_before_dispatch :
    isDue 101 exampleOneOffTask = true ∧
    (effectsSince (NewScheduler exampleRepo [101, 151])
        (NewScheduler exampleRepo [101, 151]).checkOneOffTasks).findIdx
          (Effect.isDispatchOf 1) = 0 ∧
    (effectsSince (NewScheduler exampleRepo [101, 151])
        (NewScheduler exampleRepo [101, 151]).checkOneOffTasks).findIdx
          (Effect.isClaimOf 1) = 1 ∧
    ¬ ((effectsSince (NewScheduler exampleRepo [101, 151])
        (NewScheduler exampleRepo [101, 151]).checkOneOffTasks).findIdx (Effect.isClaimOf 1)
      ≤ (effectsSince (NewScheduler exampleRepo [101, 151])
        (NewScheduler exampleRepo [101, 151]).checkOneOffTasks).findIdx
          (Effect.isDispatchOf 1)) := by
  decide

/-- C5, as the code has it: for the task list the store returned and the
current time `now`, a tick dispatches a task exactly when it is in the list,
its trigger kind is one-off and its `next_run` is set and strictly before `now`;
every `UpdateTask` call of the tick is for such a task, so cron tasks and tasks
that are not due are neither dispatched nor updated. -/
theorem checkOneOffTasks_dispatch_iff (s : Scheduler) (repo : Repository)
    (tasks : List Task) (now : Time) (rest : List Time)
    (hq : s.repo.GetScheduledTasks = (repo, .ok tasks)) (hc : s.clock = now :: rest) :
    (∀ t, Effect.dispatch t ∈ effectsSince s s.checkOneOffTasks ↔
      t ∈ tasks ∧ t.Trigger.Kind = TriggerOneOff ∧ ∃ n, t.NextRun = some n ∧ n < now) ∧
    (∀ u err, Effect.updateTask u err ∈ effectsSince s s.checkOneOffTasks →
      ∃ t ∈ tasks, (t.Trigger.Kind = TriggerOneOff ∧ ∃ n, t.NextRun = some n ∧ n < now) ∧
        u.ID = t.ID) := by
  have h := Scheduler.checkOneOffTasks_effects s repo tasks hq
  have hnow : (readClock s.clock).1 = now := by rw [hc]; rfl
  rw [hnow] at h
  constructor
  · intro t
    rw [h.dispatch_mem t, isDue_iff]
  · intro u err hu
    obtain ⟨t, ht, hd, stamp, hst⟩ := h.update_mem u err hu
    exact ⟨t, ht, (isDue_iff now t).1 hd, by rw [hst]; rfl⟩

theorem checkOneOffTasks_dispatch_iff_witness :
    Effect.dispatch exampleOneOffTask ∈ effectsSince (NewScheduler exampleRepo [101, 151])
        (NewScheduler exampleRepo [101, 151]).checkOneOffTasks ↔
      exampleOneOffTask ∈ [{ exampleCronTask with NextRun := some 50 }, exampleOneOffTask] ∧
        exampleOneOffTask.Trigger.Kind = TriggerOneOff ∧
        ∃ n, exampleOneOffTask.NextRun = some n ∧ n < 101 :=
  (checkOneOffTasks_dispatch_iff (NewScheduler exampleRepo [101, 151]) exampleRepo
    [{ exampleCronTask with NextRun := some 50 }, exampleOneOffTask] 101 [151] rfl rfl).1
      exampleOneOffTask

/-- C5 as stated fails at `next_run` equal to `now`: the one-off task 1 of the
example store has `next_run` 100, it is at or before the current time 100, and
the tick at time 100 does not dispatch it. -/
theorem checkOneOffTasks_not_dispatched_at_equality :
    ¬ (Effect.dispatch exampleOneOffTask ∈ effectsSince (NewScheduler exampleRepo [100, 151])
        (NewScheduler exampleRepo [100, 151]).checkOneOffTasks ↔
      exampleOneOffTask ∈ [{ exampleCronTask with NextRun := some 50 }, exampleOneOffTask] ∧
        exampleOneOffTask.Trigger.Kind = TriggerOneOff ∧
        ∃ n, exampleOneOffTask.NextRun = some n ∧ n ≤ 100) := by
  intro h
  have h1 : Effect.dispatch exampleOneOffTask ∈
      effectsSince (NewScheduler exampleRepo [100, 151])
        (NewScheduler exampleRepo [100, 151]).checkOneOffTasks :=
    h.2 ⟨by decide, rfl, 100, rfl, le_refl _⟩
  revert h1
  decide

/-- C6: for every due one-off task in the list a tick loaded from a store whose
task ids are distinct, the tick dispatches exactly one execution of the id (the
task as loaded), sends the store an `UpdateTask` with status `completed`,
`next_run` null and the id, name, trigger, action and `created_at` as loaded, and
leaves the job registry without an entry for the id. -/
theorem checkOneOffTasks_fires_due_task (s : Scheduler) (repo : Repository)
    (tasks : List Task) (hq : s.repo.GetScheduledTasks = (repo, .ok tasks))
    (hn : (s.repo.tasks.map Task.ID).Nodup) (t : Task) (ht : t ∈ tasks)
    (hd : isDue (readClock s.clock).1 t = true) :
    dispatchCount (effectsSince s s.checkOneOffTasks) t.ID = 1 ∧
    Effect.dispatch t ∈ effectsSince s s.checkOneOffTasks ∧
    (∃ u err, Effect.updateTask u err ∈ effectsSince s s.checkOneOffTasks ∧
      u.Status = StatusCompleted ∧ u.NextRun = none ∧ u.ID = t.ID ∧ u.Name = t.Name ∧
      u.Trigger = t.Trigger ∧ u.Action = t.Action ∧ u.CreatedAt = t.CreatedAt) ∧
    s.checkOneOffTasks.jobs.get t.ID = none := by
  have h := Scheduler.checkOneOffTasks_effects s repo tasks hq
  refine ⟨h.dispatchCount_one (Repository.GetScheduledTasks_nodup _ _ _ hq hn) t ht hd,
    (h.dispatch_mem t).2 ⟨ht, hd⟩, ?_, Scheduler.checkOneOffTasks_jobs s repo tasks hq t ht hd⟩
  obtain ⟨stamp, err, hu⟩ := h.fired_mem t ht hd
  exact ⟨_, err, hu, rfl, rfl, rfl, rfl, rfl, rfl, rfl⟩

theorem checkOneOffTasks_fires_due_task_witness :
    dispatchCount (effectsSince (NewScheduler exampleRepo [101, 151])
        (NewScheduler exampleRepo [101, 151]).checkOneOffTasks) 1 = 1 ∧
      (NewScheduler exampleRepo [101, 151]).checkOneOffTasks.jobs.get 1 = none :=
  ⟨(checkOneOffTasks_fires_due_task (NewScheduler exampleRepo [101, 151]) exampleRepo
      [{ exampleCronTask with NextRun := some 50 }, exampleOneOffTask] rfl (by decide)
      exampleOneOffTask (by decide) (by decide)).1,
   (checkOneOffTasks_fires_due_task (NewScheduler exampleRepo [101, 151]) exampleRepo
      [{ exampleCronTask with NextRun := some 50 }, exampleOneOffTask] rfl (by decide)
      exampleOneOffTask (by decide) (by decide)).2.2.2⟩

/-! ## A sequence of ticks -/

theorem updateRow_ID (task row : Task) : (updateRow task row).ID = row.ID := by
  unfold updateRow
  split <;> rfl

theorem Repository.UpdateTask_tasks (r : Repository) (task : Task) :
    (r.UpdateTask task).1.tasks = r.tasks ∨
      (r.UpdateTask task).1.tasks = r.tasks.map (updateRow task) := by
  unfold Repository.UpdateTask
  cases hf : (nextFault r.execFaults).1 with
  | true => left; simp [hf]
  | false =>
    right
    simp only [hf, Bool.false_eq_true, if_false]
    split <;> rfl

theorem Repository.UpdateTask_ids (r : Repository) (task : Task) :
    (r.UpdateTask task).1.tasks.map Task.ID = r.tasks.map Task.ID := by
  rcases Repository.UpdateTask_tasks r task with h | h
  · rw [h]
  · rw [h, List.map_map]
    apply List.map_congr_left
    intro row _
    exact updateRow_ID task row

theorem Repository.UpdateTask_keeps_notScheduled (r : Repository) (task : Task) (id : UUID)
    (hs : task.Status ≠ StatusScheduled) (h : r.notScheduled id) :
    (r.UpdateTask task).1.notScheduled id := by
  rcases Repository.UpdateTask_tasks r task with h1 | h1
  · intro row hrow; rw [h1] at hrow; exact h row hrow
  · intro row hrow hid
    rw [h1, List.mem_map] at hrow
    obtain ⟨row0, hmem, heq⟩ := hrow
    subst heq
    unfold updateRow
    split
    · exact hs
    · rw [updateRow_ID] at hid
      exact h row0 hmem hid

theorem Repository.UpdateTask_ok_notScheduled (r : Repository) (task : Task)
    (hs : task.Status ≠ StatusScheduled) (hok : (r.UpdateTask task).2 = false) :
    (r.UpdateTask task).1.notScheduled task.ID := by
  unfold Repository.UpdateTask at hok ⊢
  cases hf : (nextFault r.execFaults).1 with
  | true => simp [hf] at hok
  | false =>
    simp only [hf, Bool.false_eq_true, if_false] at hok ⊢
    have htasks : ∀ row ∈ r.tasks.map (updateRow task), row.ID = task.ID →
        row.Status ≠ StatusScheduled := by
      intro row hrow hid
      rw [List.mem_map] at hrow
      obtain ⟨row0, _, heq⟩ := hrow
      subst heq
      rw [updateRow_ID] at hid
      simp only [updateRow, hid, beq_self_eq_true, if_true]
      exact hs
    split <;> exact htasks

theorem Repository.GetScheduledTasks_tasks (r : Repository) :
    r.GetScheduledTasks.1.tasks = r.tasks := by
  unfold Repository.GetScheduledTasks
  cases hf : (nextFault r.queryFaults).1 <;> simp [hf]

theorem markCompleted_not_scheduled (task : Task) (stamp : Time) :
    (markCompleted task stamp).Status ≠ StatusScheduled := by
  simp [markCompleted, StatusCompleted, StatusScheduled]

theorem dispatchCount_append (es fs : List Effect) (id : UUID) :
    dispatchCount (es ++ fs) id = dispatchCount es id + dispatchCount fs id := by
  simp [dispatchCount, List.countP_append]

theorem failedUpdateCount_append (es fs : List Effect) (id : UUID) :
    failedUpdateCount (es ++ fs) id = failedUpdateCount es id + failedUpdateCount fs id := by
  simp [failedUpdateCount, List.countP_append]

/-- The loop of a tick over tasks with distinct ids: per id, at most one
dispatch beyond the failed updates, and a dispatch that is not matched by a
failed update leaves the id without a scheduled row. -/
theorem Scheduler.checkOneOffLoop_counts (now : Time) (tasks : List Task) :
    ∀ s : Scheduler, (tasks.map Task.ID).Nodup →
      ∃ es, (tasks.foldl (Scheduler.checkOneOffStep now) s).trace = s.trace ++ es ∧
        (tasks.foldl (Scheduler.checkOneOffStep now) s).repo.tasks.map Task.ID
          = s.repo.tasks.map Task.ID ∧
        ∀ id,
          (s.repo.notScheduled id →
            (tasks.foldl (Scheduler.checkOneOffStep now) s).repo.notScheduled id) ∧
          (id ∉ tasks.map Task.ID → dispatchCount es id = 0) ∧
          dispatchCount es id ≤ failedUpdateCount es id + 1 ∧
          (dispatchCount es id = failedUpdateCount es id + 1 →
            (tasks.foldl (Scheduler.checkOneOffStep now) s).repo.notScheduled id) := by
  induction tasks with
  | nil =>
    intro s _
    refine ⟨[], by simp, rfl, fun id => ⟨fun h => h, fun _ => rfl, by simp [dispatchCount], ?_⟩⟩
    simp [dispatchCount, failedUpdateCount]
  | cons t ts ih =>
    intro s hn
    rw [List.map_cons, List.nodup_cons] at hn
    cases hd : isDue now t with
    | false =>
      obtain ⟨es, h1, h2, h3⟩ := ih s hn.2
      rw [List.foldl, Scheduler.checkOneOffStep_not_due now s t hd]
      refine ⟨es, h1, h2, fun id => ⟨(h3 id).1, fun hid => (h3 id).2.1 ?_, (h3 id).2.2⟩⟩
      intro hmem
      exact hid (by rw [List.map_cons]; exact List.mem_cons_of_mem _ hmem)
    | true =>
      obtain ⟨es, h1, h2, h3⟩ := ih (s.checkOneOffStep now t) hn.2
      have hstep := Scheduler.checkOneOffStep_due now s t hd
      have hrepo : (s.checkOneOffStep now t).repo
          = (s.repo.UpdateTask (markCompleted t (readClock s.clock).1)).1 := by rw [hstep]
      have htrace : (s.checkOneOffStep now t).trace = s.trace ++ [Effect.dispatch t,
          Effect.updateTask (markCompleted t (readClock s.clock).1)
            (s.repo.UpdateTask (markCompleted t (readClock s.clock).1)).2] := by rw [hstep]
      refine ⟨[Effect.dispatch t,
          Effect.updateTask (markCompleted t (readClock s.clock).1)
            (s.repo.UpdateTask (markCompleted t (readClock s.clock).1)).2] ++ es, ?_, ?_, ?_⟩
      · rw [List.foldl, h1, htrace, List.append_assoc]
      · rw [List.foldl, h2, hrepo, Repository.UpdateTask_ids]
      · intro id
        have hkeep : s.repo.notScheduled id → (s.checkOneOffStep now t).repo.notScheduled id := by
          intro h
          rw [hrepo]
          exact Repository.UpdateTask_keeps_notScheduled _ _ _ (markCompleted_not_scheduled _ _) h
        obtain ⟨k1, k2, k3, k4⟩ := h3 id
        rw [List.foldl, dispatchCount_append, failedUpdateCount_append]
        by_cases hid : t.ID = id
        · have hD : dispatchCount es id = 0 := k2 (hid ▸ hn.1)
          have hD1 : dispatchCount [Effect.dispatch t,
              Effect.updateTask (markCompleted t (readClock s.clock).1)
                (s.repo.UpdateTask (markCompleted t (readClock s.clock).1)).2] id = 1 := by
            simp [dispatchCount, List.countP_cons, Effect.isDispatchOf, hid]
          refine ⟨fun h => k1 (hkeep h), ?_, by omega, ?_⟩
          · intro hmem
            exact absurd (by rw [List.map_cons, hid]; exact List.mem_cons_self _ _) hmem
          · intro heq
            apply k1
            rw [hrepo, ← hid]
            apply Repository.UpdateTask_ok_notScheduled _ _ (markCompleted_not_scheduled _ _)
            cases herr : (s.repo.UpdateTask (markCompleted t (readClock s.clock).1)).2 with
            | false => rfl
            | true =>
              have hF1 : failedUpdateCount [Effect.dispatch t,
                  Effect.updateTask (markCompleted t (readClock s.clock).1)
                    (s.repo.UpdateTask (markCompleted t (readClock s.clock).1)).2] id = 1 := by
                rw [herr]
                simp [failedUpdateCount, List.countP_cons, Effect.isFailedUpdateOf,
                  markCompleted_ID, hid]
              omega
        · have hD1 : dispatchCount [Effect.dispatch t,
              Effect.updateTask (markCompleted t (readClock s.clock).1)
                (s.repo.UpdateTask (markCompleted t (readClock s.clock).1)).2] id = 0 := by
            simp [dispatchCount, List.countP_cons, Effect.isDispatchOf, hid]
          have hF1 : failedUpdateCount [Effect.dispatch t,
              Effect.updateTask (markCompleted t (readClock s.clock).1)
                (s.repo.UpdateTask (markCompleted t (readClock s.clock).1)).2] id = 0 := by
            simp [failedUpdateCount, List.countP_cons, Effect.isFailedUpdateOf, hid, markCompleted]
          refine ⟨fun h => k1 (hkeep h), ?_, by omega, ?_⟩
          · intro hmem
            rw [hD1, Nat.zero_add]
            apply k2
            intro hmem2
            exact hmem (by rw [List.map_cons]; exact List.mem_cons_of_mem _ hmem2)
          · intro heq
            apply k4
            omega

theorem Scheduler.checkOneOffTasks_counts (s : Scheduler)
    (hn : (s.repo.tasks.map Task.ID).Nodup) :
    ∃ es, s.checkOneOffTasks.trace = s.trace ++ es ∧
      s.checkOneOffTasks.repo.tasks.map Task.ID = s.repo.tasks.map Task.ID ∧
      ∀ id,
        (s.repo.notScheduled id →
          s.checkOneOffTasks.repo.notScheduled id ∧ dispatchCount es id = 0) ∧
        dispatchCount es id ≤ failedUpdateCount es id + 1 ∧
        (dispatchCount es id = failedUpdateCount es id + 1 →
          s.checkOneOffTasks.repo.notScheduled id) := by
  have htasks := Repository.GetScheduledTasks_tasks s.repo
  cases hq : s.repo.GetScheduledTasks with
  | mk repo res =>
    rw [hq] at htasks
    simp only at htasks
    cases res with
    | error e =>
      have hs : s.checkOneOffTasks = { s with repo := repo } := by
        unfold Scheduler.checkOneOffTasks
        rw [hq]
      rw [hs]
      refine ⟨[], by simp, by rw [htasks], fun id => ⟨fun h => ⟨?_, rfl⟩, by simp [dispatchCount], ?_⟩⟩
      · intro row hrow
        exact h row (htasks ▸ hrow)
      · simp [dispatchCount, failedUpdateCount]
    | ok tasks =>
      have hs : s.checkOneOffTasks = tasks.foldl (Scheduler.checkOneOffStep (readClock s.clock).1)
          { s with repo := repo, clock := (readClock s.clock).2 } := by
        unfold Scheduler.checkOneOffTasks
        rw [hq]
      have hnd := Repository.GetScheduledTasks_nodup s.repo repo tasks hq hn
      obtain ⟨es, h1, h2, h3⟩ := Scheduler.checkOneOffLoop_counts (readClock s.clock).1 tasks
        { s with repo := repo, clock := (readClock s.clock).2 } hnd
      rw [hs]
      refine ⟨es, h1, by rw [h2, htasks], fun id => ⟨fun h => ⟨?_, ?_⟩, (h3 id).2.2⟩⟩
      · apply (h3 id).1
        intro row hrow
        exact h row (htasks ▸ hrow)
      · apply (h3 id).2.1
        intro hmem
        rw [List.mem_map] at hmem
        obtain ⟨t, ht, hid⟩ := hmem
        have hmem2 := (Repository.GetScheduledTasks_mem s.repo repo tasks hq t).1 ht
        exact h t hmem2.1 hid hmem2.2

theorem Scheduler.runTicks_counts (n : Nat) :
    ∀ s : Scheduler, (s.repo.tasks.map Task.ID).Nodup →
      ∃ es, (s.runTicks n).trace = s.trace ++ es ∧
        ∀ id, (s.repo.notScheduled id → dispatchCount es id = 0) ∧
          dispatchCount es id ≤ failedUpdateCount es id + 1 := by
  induction n with
  | zero =>
    intro s _
    exact ⟨[], by simp [Scheduler.runTicks], fun id => ⟨fun _ => rfl, by simp [dispatchCount]⟩⟩
  | succ n ih =>
    intro s hn
    obtain ⟨es1, h1, h2, h3⟩ := Scheduler.checkOneOffTasks_counts s hn
    obtain ⟨es2, k1, k2⟩ := ih s.checkOneOffTasks (h2 ▸ hn)
    refine ⟨es1 ++ es2, ?_, ?_⟩
    · rw [Scheduler.runTicks, k1, h1, List.append_assoc]
    · intro id
      obtain ⟨a1, a2, a3⟩ := h3 id
      obtain ⟨b1, b2⟩ := k2 id
      rw [dispatchCount_append, failedUpdateCount_append]
      constructor
      · intro h
        rw [(a1 h).2, b1 (a1 h).1]
      · by_cases hc : dispatchCount es1 id = failedUpdateCount es1 id + 1
        · have := b1 (a3 hc)
          omega
        · omega

/-- C3, as the code has it: over any number of ticks on a store whose task ids
are distinct, and whatever the outcomes of the store calls, a task is
dispatched at most once more than the number of its `UpdateTask` calls that
returned an error; so a task none of whose `UpdateTask` calls returned an error
is dispatched at most once. -/
theorem runTicks_dispatch_bound (s : Scheduler) (n : Nat)
    (hn : (s.repo.tasks.map Task.ID).Nodup) (id : UUID) :
    dispatchCount (effectsSince s (s.runTicks n)) id
      ≤ failedUpdateCount (effectsSince s (s.runTicks n)) id + 1 ∧
    (failedUpdateCount (effectsSince s (s.runTicks n)) id = 0 →
      dispatchCount (effectsSince s (s.runTicks n)) id ≤ 1) := by
  obtain ⟨es, h1, h2⟩ := Scheduler.runTicks_counts n s hn
  have h3 : effectsSince s (s.runTicks n) = es := by simp [effectsSince, h1]
  rw [h3]
  refine ⟨(h2 id).2, fun h0 => ?_⟩
  have h := (h2 id).2
  rw [h0] at h
  exact h

theorem runTicks_dispatch_bound_witness :
    dispatchCount (effectsSince (NewScheduler faultyRepo [150, 151, 160, 161])
        ((NewScheduler faultyRepo [150, 151, 160, 161]).runTicks 2)) 1
      ≤ failedUpdateCount (effectsSince (NewScheduler faultyRepo [150, 151, 160, 161])
        ((NewScheduler faultyRepo [150, 151, 160, 161]).runTicks 2)) 1 + 1 :=
  (runTicks_dispatch_bound (NewScheduler faultyRepo [150, 151, 160, 161]) 2 (by decide) 1).1

/-- C3 as stated fails: on the store whose first `UpdateTask` call returns an
error, two ticks dispatch the one-off task 1 twice. -/
theorem runTicks_dispatches_twice :
    dispatchCount (effectsSince (NewScheduler faultyRepo [150, 151, 160, 161])
        ((NewScheduler faultyRepo [150, 151, 160, 161]).runTicks 2)) 1 = 2 ∧
    ¬ (dispatchCount (effectsSince (NewScheduler faultyRepo [150, 151, 160, 161])
        ((NewScheduler faultyRepo [150, 151, 160, 161]).runTicks 2)) 1 ≤ 1) := by
  decide

/-! ## The executor -/

theorem Repository.CreateTaskResult_fault (r : Repository) (result : TaskResult) :
    (r.CreateTaskResult result).2 = (nextFault r.execFaults).1 := by
  unfold Repository.CreateTaskResult
  cases hf : (nextFault r.execFaults).1 <;> simp [hf]

theorem Repository.CreateTaskResult_ok (r : Repository) (result : TaskResult)
    (h : (r.CreateTaskResult result).2 = false) :
    ∃ row, (r.CreateTaskResult result).1.results = r.results ++ [row] ∧
      row.TaskID = result.TaskID ∧ row.StatusCode = result.StatusCode ∧
      row.Success = result.Success ∧ row.ResponseBody = result.ResponseBody ∧
      row.ErrorMessage = result.ErrorMessage ∧
      (result.ResponseHeaders = none → row.ResponseHeaders = none) := by
  unfold Repository.CreateTaskResult at h ⊢
  cases hf : (nextFault r.execFaults).1 with
  | true => simp [hf] at h
  | false =>
    simp only [hf, Bool.false_eq_true, if_false]
    refine ⟨_, rfl, rfl, rfl, rfl, rfl, rfl, ?_⟩
    intro hh
    simp [hh]

theorem Executor.saveResult_trace (e : Executor) (result : TaskResult) :
    (e.saveResult result).trace
      = e.trace ++ [Effect.createTaskResult result (e.repo.CreateTaskResult result).2] := rfl

theorem Executor.saveResult_repo (e : Executor) (result : TaskResult) :
    (e.saveResult result).repo = (e.repo.CreateTaskResult result).1 := rfl

/-- C7: when the request is built and the round trip returns a response with
status code `s`, `ExecuteTask` hands the store exactly one `TaskResult`, for
the task, with `StatusCode = s`, `Success` true exactly when `200 ≤ s < 300`,
`ResponseBody` the text of the response when its body is read without error and
empty when reading the body fails, and `ErrorMessage` unset, and the row the
store appends when the insert succeeds carries the same values; for `s = 200`
this is `Success = true` and `StatusCode = 200`. -/
theorem ExecuteTask_response_result (http : HTTP) (e : Executor) (task : Task) (req : Request)
    (resp : Response) (hb : buildRequest http task.Action = .ok req)
    (hr : http.roundTrip req = .ok resp) :
    ∃ result err,
      (e.ExecuteTask http task).trace = e.trace ++ [Effect.createTaskResult result err] ∧
      result.TaskID = task.ID ∧
      result.StatusCode = resp.StatusCode ∧
      (result.Success = true ↔ 200 ≤ resp.StatusCode ∧ resp.StatusCode < 300) ∧
      (resp.ReadErr = none → result.ResponseBody = resp.Body) ∧
      (resp.ReadErr ≠ none → result.ResponseBody = "") ∧
      result.ErrorMessage = none ∧
      (resp.StatusCode = 200 → result.Success = true ∧ result.StatusCode = 200) ∧
      (err = false → ∃ row, (e.ExecuteTask http task).repo.results = e.repo.results ++ [row] ∧
        row.TaskID = task.ID ∧ row.StatusCode = resp.StatusCode ∧
        row.Success = result.Success ∧ row.ResponseBody = result.ResponseBody ∧
        row.ErrorMessage = none) := by
  unfold Executor.ExecuteTask
  simp only [hb, hr]
  refine ⟨_, _, Executor.saveResult_trace _ _, rfl, rfl, ?_, ?_, ?_, rfl, ?_, ?_⟩
  · simp
  · intro hbody
    simp [hbody]
  · intro hbody
    cases hre : resp.ReadErr with
    | none => exact absurd hre hbody
    | some _ => rfl
  · intro h200
    simp [h200]
  · intro herr
    obtain ⟨row, h1, h2, h3, h4, h5, h6, _⟩ := Repository.CreateTaskResult_ok _ _ herr
    exact ⟨row, by rw [Executor.saveResult_repo]; exact h1, h2, h3, h4, h5, h6⟩

theorem ExecuteTask_response_result_witness :
    ∃ result err,
      (exampleExecutor.ExecuteTask exampleHTTP exampleOneOffTask).trace
        = exampleExecutor.trace ++ [Effect.createTaskResult result err] ∧
      result.TaskID = exampleOneOffTask.ID ∧
      result.StatusCode = 200 ∧ result.Success = true ∧ result.ResponseBody = "pong" := by
  obtain ⟨result, err, h1, h2, h3, _, h5, _, _, h7, _⟩ :=
    ExecuteTask_response_result exampleHTTP exampleExecutor exampleOneOffTask
      { Method := "POST", URL := "http://localhost/hook", Header := [], Body := none }
      { StatusCode := 200, Header := some [("Content-Type", ["text/plain"])], Body := "pong",
        ReadErr := none }
      rfl rfl
  exact ⟨result, err, h1, h2, h3, (h7 rfl).1, h5 rfl⟩

/-- C7, counterexample: the server answers with status 200 and the text `pong`,
and reading the body fails; the result `ExecuteTask` stores has status code 200,
`Success = true` and no error message, and its `ResponseBody` is empty, not the
text of the response. -/
theorem ExecuteTask_body_read_failure :
    droppedBodyHTTP.roundTrip
        { Method := "POST", URL := "http://localhost/hook", Header := [], Body := none }
      = .ok { StatusCode := 200, Header := some [("Content-Type", ["text/plain"])],
              Body := "pong", ReadErr := some "unexpected EOF" } ∧
    (exampleExecutor.ExecuteTask droppedBodyHTTP exampleOneOffTask).repo.results
      = [{ ID := 42, TaskID := 1, RunAt := 1000000, StatusCode := 200, Success := true,
           ResponseHeaders := some "\x7b\"Content-Type\":[\"text/plain\"]\x7d",
           ResponseBody := "", ErrorMessage := none, DurationMs := 5, CreatedAt := 1000001 }] ∧
    (exampleExecutor.ExecuteTask droppedBodyHTTP exampleOneOffTask).trace
      = [Effect.createTaskResult
          { ID := 42, TaskID := 1, RunAt := 1000000, StatusCode := 200, Success := true,
            ResponseHeaders := some "\x7b\"Content-Type\":[\"text/plain\"]\x7d",
            ResponseBody := "", ErrorMessage := none, DurationMs := 5, CreatedAt := 1000001 }
          false] := by
  refine ⟨rfl, ?_, ?_⟩ <;> decide

/-- C8: when the request cannot be built, or the round trip fails, the
`TaskResult` that `ExecuteTask` hands the store (and the row appended when the
insert succeeds) has `Success = false`, `StatusCode = 0`, an error message, an
empty `ResponseBody` and no response headers. -/
theorem ExecuteTask_failure_result (http : HTTP) (e : Executor) (task : Task)
    (h : (∃ msg, buildRequest http task.Action = .error msg) ∨
      (∃ req msg, buildRequest http task.Action = .ok req ∧ http.roundTrip req = .error msg)) :
    ∃ result err,
      (e.ExecuteTask http task).trace = e.trace ++ [Effect.createTaskResult result err] ∧
      result.TaskID = task.ID ∧
      result.Success = false ∧ result.StatusCode = 0 ∧ result.ErrorMessage ≠ none ∧
      result.ResponseBody = "" ∧ result.ResponseHeaders = none ∧
      (err = false → ∃ row, (e.ExecuteTask http task).repo.results = e.repo.results ++ [row] ∧
        row.TaskID = task.ID ∧ row.Success = false ∧ row.StatusCode = 0 ∧
        row.ErrorMessage ≠ none ∧ row.ResponseBody = "" ∧ row.ResponseHeaders = none) := by
  rcases h with ⟨msg, hb⟩ | ⟨req, msg, hb, hr⟩
  · unfold Executor.ExecuteTask
    simp only [hb]
    refine ⟨_, _, Executor.saveResult_trace _ _, rfl, rfl, rfl, by simp, rfl, rfl, ?_⟩
    intro herr
    obtain ⟨row, h1, h2, h3, h4, h5, h6, h7⟩ := Repository.CreateTaskResult_ok _ _ herr
    exact ⟨row, by rw [Executor.saveResult_repo]; exact h1, h2, h4, h3, by rw [h6]; simp, h5,
      h7 rfl⟩
  · unfold Executor.ExecuteTask
    simp only [hb, hr]
    refine ⟨_, _, Executor.saveResult_trace _ _, rfl, rfl, rfl, by simp, rfl, rfl, ?_⟩
    intro herr
    obtain ⟨row, h1, h2, h3, h4, h5, h6, h7⟩ := Repository.CreateTaskResult_ok _ _ herr
    exact ⟨row, by rw [Executor.saveResult_repo]; exact h1, h2, h4, h3, by rw [h6]; simp, h5,
      h7 rfl⟩

theorem ExecuteTask_failure_result_witness :
    ∃ result err,
      (exampleExecutor.ExecuteTask exampleHTTP unreachableTask).trace
        = exampleExecutor.trace ++ [Effect.createTaskResult result err] ∧
      result.Success = false ∧ result.StatusCode = 0 ∧ result.ErrorMessage ≠ none := by
  obtain ⟨result, err, h1, _, h3, h4, h5, _⟩ :=
    ExecuteTask_failure_result exampleHTTP exampleExecutor unreachableTask
      (Or.inr ⟨{ Method := "POST", URL := "http://unreachable.invalid/", Header := [],
                 Body := none }, "no such host", rfl, rfl⟩)
  exact ⟨result, err, h1, h3, h4, h5⟩

/-- C9: on every path `ExecuteTask` appends exactly one effect, a
`CreateTaskResult` call whose `TaskID` is the executed task's id; the outcome of
that call is the store's, and when it is an error the call is still the only
one (no retry) and `ExecuteTask` returns all the same. -/
theorem ExecuteTask_saves_exactly_once (http : HTTP) (e : Executor) (task : Task) :
    ∃ result,
      (e.ExecuteTask http task).trace
        = e.trace ++ [Effect.createTaskResult result (nextFault e.repo.execFaults).1] ∧
      result.TaskID = task.ID ∧
      ((e.ExecuteTask http task).trace.drop e.trace.length).countP Effect.isCreateTaskResult = 1
      ∧ ((nextFault e.repo.execFaults).1 = true →
          (e.ExecuteTask http task).repo.results = e.repo.results) := by
  have key : ∀ (e1 : Executor) (result : TaskResult), e1.repo = e.repo → e1.trace = e.trace →
      result.TaskID = task.ID →
      ∃ result1, (e1.saveResult result).trace
          = e.trace ++ [Effect.createTaskResult result1 (nextFault e.repo.execFaults).1] ∧
        result1.TaskID = task.ID ∧
        ((e1.saveResult result).trace.drop e.trace.length).countP Effect.isCreateTaskResult = 1 ∧
        ((nextFault e.repo.execFaults).1 = true →
          (e1.saveResult result).repo.results = e.repo.results) := by
    intro e1 result hrepo htrace hid
    have h1 : (e1.saveResult result).trace
        = e.trace ++ [Effect.createTaskResult result (nextFault e.repo.execFaults).1] := by
      rw [Executor.saveResult_trace, Repository.CreateTaskResult_fault, hrepo, htrace]
    refine ⟨result, h1, hid, ?_, ?_⟩
    · rw [h1]
      simp [Effect.isCreateTaskResult]
    · intro hf
      rw [Executor.saveResult_repo, hrepo]
      unfold Repository.CreateTaskResult
      simp [hf]
  cases hb : buildRequest http task.Action with
  | error msg =>
    unfold Executor.ExecuteTask
    simp only [hb]
    apply key <;> rfl
  | ok req =>
    cases hr : http.roundTrip req with
    | error msg =>
      unfold Executor.ExecuteTask
      simp only [hb, hr]
      apply key <;> rfl
    | ok resp =>
      unfold Executor.ExecuteTask
      simp only [hb, hr]
      apply key <;> rfl

/-! ## The request the executor builds -/

theorem Header.get_set_same (h : Header) (k v : String) : (h.set k v).get k = v := by
  have hnone : (h.filter (fun p => !(p.1 == k))).find? (fun p => p.1 == k) = none := by
    rw [List.find?_eq_none]
    intro p hp
    simpa using (List.mem_filter.1 hp).2
  simp [Header.set, Header.get, List.find?_append, hnone]

theorem Header.get_set_other (h : Header) (k k' v : String) (hne : k ≠ k') :
    (h.set k v).get k' = h.get k' := by
  have hfind : (h.filter (fun p => !(p.1 == k))).find? (fun p => p.1 == k')
      = h.find? (fun p => p.1 == k') := by
    rw [List.find?_filter]
    congr 1
    funext p
    by_cases hq : p.1 = k'
    · have e1 : (p.1 == k) = false := by
        have : ¬ p.1 = k := fun h => hne (h.symm.trans hq)
        simpa using this
      have e2 : (p.1 == k') = true := by simpa using hq
      rw [e1, e2]; rfl
    · have e2 : (p.1 == k') = false := by simpa using hq
      rw [e2]; simp
  simp only [Header.set, Header.get, List.find?_append, hfind]
  cases hf : h.find? (fun p => p.1 == k') with
  | none => simp [List.find?_cons, hne]
  | some p => simp

theorem string_length_pos_iff (p : String) : (decide (p.length > 0)) = true ↔ p ≠ "" := by
  rw [decide_eq_true_iff]
  constructor
  · intro h hp
    rw [hp] at h
    exact absurd h (by decide)
  · intro h
    rcases p with ⟨l⟩
    cases l with
    | nil => exact absurd rfl h
    | cons c l => simp [String.length]

theorem headerFold_get_absent (canon : String → String) (key : String)
    (hs : List (String × String)) :
    ∀ acc : Header, (∀ kv ∈ hs, canon kv.1 ≠ key) →
      (hs.foldl (fun h kv => h.set (canon kv.1) kv.2) acc).get key = acc.get key := by
  induction hs with
  | nil => intro acc _; rfl
  | cons kv hs ih =>
    intro acc h
    rw [List.foldl, ih _ (fun x hx => h x (List.mem_cons_of_mem _ hx)),
      Header.get_set_other _ _ _ _ (h kv (List.mem_cons_self _ _))]

theorem headerFold_get_last (canon : String → String) (key : String)
    (pre post : List (String × String)) (k v : String) (hk : canon k = key)
    (hpost : ∀ kv ∈ post, canon kv.1 ≠ key) (acc : Header) :
    ((pre ++ (k, v) :: post).foldl (fun h kv => h.set (canon kv.1) kv.2) acc).get key = v := by
  rw [List.foldl_append, List.foldl_cons, headerFold_get_absent canon key post _ hpost]
  show Header.get (Header.set _ (canon k) v) key = v
  rw [hk, Header.get_set_same]

/-- C10, as the code has it: the default `Content-Type: application/json` is set
exactly when a payload is present (non-nil) and the content type the request
holds after the action's headers were set is empty; that value is empty when no
key of the action's headers canonicalises to `Content-Type`, and otherwise it is
the value of the one among these keys that was set last.  Without a payload, or
with a non-empty value, the headers set from the action are sent as they are.
A payload that is present and not empty is the body of the request. -/
theorem buildRequest_content_type (http : HTTP) (action : Action) (req : Request)
    (hb : buildRequest http action = .ok req) :
    ((∀ hs, action.Headers = some hs →
        ∀ kv ∈ hs, http.canonicalKey kv.1 ≠ http.canonicalKey "Content-Type") →
      (actionHeaders http action).get (http.canonicalKey "Content-Type") = "") ∧
    (∀ pre post k v, action.Headers = some (pre ++ (k, v) :: post) →
      http.canonicalKey k = http.canonicalKey "Content-Type" →
      (∀ kv ∈ post, http.canonicalKey kv.1 ≠ http.canonicalKey "Content-Type") →
      (actionHeaders http action).get (http.canonicalKey "Content-Type") = v) ∧
    (action.Payload ≠ none →
      (actionHeaders http action).get (http.canonicalKey "Content-Type") = "" →
      req.Header
          = (actionHeaders http action).set (http.canonicalKey "Content-Type") "application/json"
        ∧ req.Header.get (http.canonicalKey "Content-Type") = "application/json") ∧
    (action.Payload = none ∨
        (actionHeaders http action).get (http.canonicalKey "Content-Type") ≠ "" →
      req.Header = actionHeaders http action) ∧
    (∀ p, p ≠ "" → action.Payload = some p → req.Body = some p) ∧
    (∀ p, req.Body = some p ↔ action.Payload = some p ∧ p ≠ "") := by
  unfold buildRequest at hb
  cases hnr : http.newRequest action.Method action.URL with
  | some err => simp [hnr] at hb
  | none =>
    simp only [hnr, Except.ok.injEq] at hb
    subst hb
    have hkeep : (actionHeaders http action).get (http.canonicalKey "Content-Type") ≠ "" →
        (if (action.Payload.isSome &&
            (actionHeaders http action).get (http.canonicalKey "Content-Type") == "") = true
          then (actionHeaders http action).set (http.canonicalKey "Content-Type") "application/json"
          else actionHeaders http action) = actionHeaders http action := by
      intro h
      simp [h]
    have hdef : action.Payload ≠ none →
        (actionHeaders http action).get (http.canonicalKey "Content-Type") = "" →
        (if (action.Payload.isSome &&
            (actionHeaders http action).get (http.canonicalKey "Content-Type") == "") = true
          then (actionHeaders http action).set (http.canonicalKey "Content-Type") "application/json"
          else actionHeaders http action)
          = (actionHeaders http action).set (http.canonicalKey "Content-Type")
              "application/json" := by
      intro hp h
      have hs : action.Payload.isSome = true := Option.isSome_iff_ne_none.2 hp
      simp [h, hs]
    have hbody : ∀ p, (match action.Payload with
          | some p => if p.length > 0 then some p else none
          | none => none) = some p ↔ action.Payload = some p ∧ p ≠ "" := by
      intro p
      cases hp : action.Payload with
      | none => simp
      | some q =>
        by_cases hq : q = ""
        · subst hq
          simp only [Option.some.injEq]
          constructor
          · intro h
            have h0 : (if "".length > 0 then some "" else none : Option String) = none := rfl
            rw [h0] at h
            cases h
          · intro h; exact absurd h.1.symm h.2
        · have hlen : q.length > 0 := by simpa using (string_length_pos_iff q).2 hq
          simp only [hlen, if_true, Option.some.injEq]
          constructor
          · intro h; exact ⟨h, h ▸ hq⟩
          · intro h; exact h.1
    refine ⟨?_, ?_, ?_, ?_, fun p hne hp => (hbody p).2 ⟨hp, hne⟩, hbody⟩
    · intro hnone
      unfold actionHeaders
      cases hh : action.Headers with
      | none => rfl
      | some hs =>
        exact headerFold_get_absent http.canonicalKey _ hs [] (hnone hs hh)
    · intro pre post k v hh hk hpost
      unfold actionHeaders
      rw [hh]
      exact headerFold_get_last http.canonicalKey _ pre post k v hk hpost []
    · intro hp h
      refine ⟨hdef hp h, ?_⟩
      show Header.get (if _ then _ else _) _ = _
      rw [hdef hp h, Header.get_set_same]
    · intro h
      rcases h with hp | hne
      · simp [hp]
      · exact hkeep hne

theorem buildRequest_content_type_witness :
    buildRequest exampleHTTP xmlAction
        = .ok { Method := "POST", URL := "http://localhost/hook",
                Header := [("Content-Type", ["text/xml"])], Body := some "<a/>" } ∧
      (actionHeaders exampleHTTP xmlAction).get (exampleHTTP.canonicalKey "Content-Type")
        = "text/xml" :=
  ⟨rfl, (buildRequest_content_type exampleHTTP xmlAction
      { Method := "POST", URL := "http://localhost/hook",
        Header := [("Content-Type", ["text/xml"])], Body := some "<a/>" } rfl).2.1
      [] [] "content-type" "text/xml" rfl rfl (by simp)⟩

/-- C10 as stated fails where the action supplies a content type whose value is
empty.  An action that supplies `Content-Type` with an empty value next to a
payload gets the default; so does an action that supplies `content-type:
text/xml` and `Content-Type` with an empty value, when the empty one is set
last. -/
theorem buildRequest_default_applied :
    buildRequest exampleHTTP emptyContentTypeAction
        = .ok { Method := "POST", URL := "http://localhost/hook",
                Header := [("Content-Type", ["application/json"])], Body := some "\x7b\x7d" } ∧
      buildRequest exampleHTTP twoContentTypesAction
        = .ok { Method := "POST", URL := "http://localhost/hook",
                Header := [("Content-Type", ["application/json"])], Body := some "<a/>" } :=
  ⟨rfl, rfl⟩

/-! ## Scheduling: the frame of `unregister` and the other branches -/

theorem Scheduler.unregister_repo (s : Scheduler) (id : UUID) : (s.unregister id).repo = s.repo := by
  unfold Scheduler.unregister
  cases s.jobs.get id <;> rfl

theorem Scheduler.unregister_trace (s : Scheduler) (id : UUID) :
    (s.unregister id).trace = s.trace := by
  unfold Scheduler.unregister
  cases s.jobs.get id <;> rfl

theorem Scheduler.unregister_clock (s : Scheduler) (id : UUID) :
    (s.unregister id).clock = s.clock := by
  unfold Scheduler.unregister
  cases s.jobs.get id <;> rfl

theorem Scheduler.unregister_nextID (s : Scheduler) (id : UUID) :
    (s.unregister id).cron.nextID = s.cron.nextID := by
  unfold Scheduler.unregister
  cases s.jobs.get id <;> rfl

theorem Scheduler.unregister_running (s : Scheduler) (id : UUID) :
    (s.unregister id).cron.running = s.cron.running := by
  unfold Scheduler.unregister
  cases s.jobs.get id <;> rfl

theorem Scheduler.unregister_entries_subset (s : Scheduler) (id : UUID) :
    ∀ e ∈ (s.unregister id).cron.entries, e ∈ s.cron.entries := by
  intro e he
  unfold Scheduler.unregister at he
  cases h : s.jobs.get id with
  | none => simpa [h] using he
  | some eid =>
    simp only [h, Cron.Remove] at he
    exact (List.mem_filter.1 he).1

theorem Scheduler.unregister_cancels (s : Scheduler) (id : UUID) (eid : EntryID)
    (h : s.jobs.get id = some eid) : ∀ e ∈ (s.unregister id).cron.entries, e.ID ≠ eid := by
  intro e he
  unfold Scheduler.unregister at he
  simp only [h, Cron.Remove] at he
  simpa using (List.mem_filter.1 he).2

theorem Scheduler.unregister_keeps (s : Scheduler) (id : UUID) (e : Entry)
    (he : e ∈ s.cron.entries) (h : s.jobs.get id ≠ some e.ID) :
    e ∈ (s.unregister id).cron.entries := by
  unfold Scheduler.unregister
  cases hg : s.jobs.get id with
  | none => exact he
  | some eid =>
    simp only [Cron.Remove]
    refine List.mem_filter.2 ⟨he, ?_⟩
    have : ¬ e.ID = eid := fun h1 => h (by rw [hg, h1])
    simpa using this

theorem Scheduler.unregister_get (s : Scheduler) (id : UUID) :
    (s.unregister id).jobs.get id = none := by
  rw [Scheduler.unregister_jobs]
  exact Jobs.get_delete _ _

theorem kind_oneOff_ne_cron : (TriggerOneOff == TriggerCron) = false := by decide

/-- What `ScheduleTask` does with a cron task whose expression the engine's
parser refuses, from any scheduler state: it returns the parser's error, the
registry has no entry for the task's id, the engine gained no entry and lost the
one the registry held for the id (so it holds no entry of the task when all its
entries of the task were registered), and the store is not called, so no
`next_run` is written and the task keeps its own. -/
theorem ScheduleTask_cron_rejected (lib : CronLib) (s : Scheduler) (task : Task)
    (expr err : String) (hk : task.Trigger.Kind = TriggerCron)
    (hc : task.Trigger.Cron = some expr) (hp : lib.parse expr = some err) :
    (s.ScheduleTask lib task).2.2 = some err ∧
    (s.ScheduleTask lib task).1.jobs.get task.ID = none ∧
    (s.ScheduleTask lib task).1.jobs.countFor task.ID = 0 ∧
    (∀ e ∈ (s.ScheduleTask lib task).1.cron.entries, e ∈ s.cron.entries) ∧
    (∀ eid, s.jobs.get task.ID = some eid →
      ∀ e ∈ (s.ScheduleTask lib task).1.cron.entries, e.ID ≠ eid) ∧
    ((∀ e ∈ s.cron.entries, e.job.ID = task.ID → s.jobs.get task.ID = some e.ID) →
      ∀ e ∈ (s.ScheduleTask lib task).1.cron.entries, e.job.ID ≠ task.ID) ∧
    (s.ScheduleTask lib task).1.repo = s.repo ∧
    (s.ScheduleTask lib task).1.trace = s.trace ∧
    (s.ScheduleTask lib task).2.1 = task := by
  have hres : s.ScheduleTask lib task = (s.unregister task.ID, task, some err) := by
    unfold Scheduler.ScheduleTask Scheduler.scheduleCronTask Cron.AddFunc
    simp only [hk, hc, hp, beq_self_eq_true, if_true]
  rw [hres]
  refine ⟨rfl, Scheduler.unregister_get s task.ID, ?_, Scheduler.unregister_entries_subset s task.ID,
    fun eid h => Scheduler.unregister_cancels s task.ID eid h, ?_,
    Scheduler.unregister_repo s task.ID, Scheduler.unregister_trace s task.ID, rfl⟩
  · show (s.unregister task.ID).jobs.countFor task.ID = 0
    rw [Scheduler.unregister_jobs]
    exact Jobs.countFor_delete _ _
  · intro hreg e he hid
    have hold := Scheduler.unregister_entries_subset s task.ID e he
    exact Scheduler.unregister_cancels s task.ID e.ID (hreg e hold hid) e he rfl

theorem ScheduleTask_cron_rejected_witness :
    (runningScheduler.ScheduleTask exampleLib
        { badCronTask with ID := 7 }).2.2 = some "bad expression" ∧
      (runningScheduler.ScheduleTask exampleLib { badCronTask with ID := 7 }).1.jobs.get 7 = none ∧
      (∀ e ∈ (runningScheduler.ScheduleTask exampleLib
          { badCronTask with ID := 7 }).1.cron.entries, e.job.ID ≠ 7) :=
  ⟨(ScheduleTask_cron_rejected exampleLib runningScheduler { badCronTask with ID := 7 }
      "every day" "bad expression" rfl rfl (by decide)).1,
   (ScheduleTask_cron_rejected exampleLib runningScheduler { badCronTask with ID := 7 }
      "every day" "bad expression" rfl rfl (by decide)).2.1,
   (ScheduleTask_cron_rejected exampleLib runningScheduler { badCronTask with ID := 7 }
      "every day" "bad expression" rfl rfl (by decide)).2.2.2.2.2.1 (by decide)⟩

/-- C12, as the code has it: for every task whose trigger kind is neither `cron`
nor `one-off`, `ScheduleTask` logs the kind and returns ok; the task is left
unscheduled: an earlier registry entry of its id is unregistered, nothing is
added to the registry or the engine, the store is not called and the task is
not changed. -/
theorem ScheduleTask_unknown_kind (lib : CronLib) (s : Scheduler) (task : Task)
    (h1 : task.Trigger.Kind ≠ TriggerCron) (h2 : task.Trigger.Kind ≠ TriggerOneOff) :
    (s.ScheduleTask lib task).2.2 = none ∧
    (s.ScheduleTask lib task).2.1 = task ∧
    (s.ScheduleTask lib task).1 = s.unregister task.ID ∧
    (s.ScheduleTask lib task).1.jobs.get task.ID = none ∧
    (∀ e ∈ (s.ScheduleTask lib task).1.cron.entries, e ∈ s.cron.entries) ∧
    (s.ScheduleTask lib task).1.repo = s.repo ∧
    (s.ScheduleTask lib task).1.trace = s.trace := by
  have hres : s.ScheduleTask lib task = (s.unregister task.ID, task, none) := by
    unfold Scheduler.ScheduleTask
    simp [h1, h2]
  rw [hres]
  exact ⟨rfl, rfl, rfl, Scheduler.unregister_get s task.ID,
    Scheduler.unregister_entries_subset s task.ID, Scheduler.unregister_repo s task.ID,
    Scheduler.unregister_trace s task.ID⟩

theorem ScheduleTask_unknown_kind_witness :
    (runningScheduler.ScheduleTask exampleLib weeklyTask).2.2 = none ∧
      (runningScheduler.ScheduleTask exampleLib weeklyTask).1.jobs.get 7 = none :=
  ⟨(ScheduleTask_unknown_kind exampleLib runningScheduler weeklyTask (by decide) (by decide)).1,
   (ScheduleTask_unknown_kind exampleLib runningScheduler weeklyTask
      (by decide) (by decide)).2.2.2.1⟩

/-- C12 as stated fails: for the task whose trigger kind is `weekly`,
`ScheduleTask` returns ok, not an error. -/
theorem ScheduleTask_unknown_kind_returns_ok :
    weeklyTask.Trigger.Kind ≠ TriggerCron ∧ weeklyTask.Trigger.Kind ≠ TriggerOneOff ∧
      ((NewScheduler emptyRepo []).ScheduleTask exampleLib weeklyTask).2.2 = none ∧
      ¬ ∃ err, ((NewScheduler emptyRepo []).ScheduleTask exampleLib weeklyTask).2.2 = some err := by
  refine ⟨by decide, by decide, by decide, ?_⟩
  rintro ⟨err, h⟩
  have h0 : ((NewScheduler emptyRepo []).ScheduleTask exampleLib weeklyTask).2.2 = none := by
    decide
  rw [h0] at h
  cases h

/-- The result of `ScheduleTask` for a one-off trigger with a timestamp. -/
theorem Scheduler.ScheduleTask_oneOff_eq (lib : CronLib) (s : Scheduler) (task : Task) (t : Time)
    (hk : task.Trigger.Kind = TriggerOneOff) (hd : task.Trigger.DateTime = some t) :
    s.ScheduleTask lib task
      = ((s.unregister task.ID).persist { task with NextRun := some t },
          { task with NextRun := some t }, none) := by
  unfold Scheduler.ScheduleTask Scheduler.scheduleOneOffTask
  simp only [hk, hd, kind_oneOff_ne_cron, beq_self_eq_true, if_true, Bool.false_eq_true, if_false]

theorem Scheduler.persist_trace (s : Scheduler) (task : Task) :
    (s.persist task).trace = s.trace ++ [Effect.updateTask task (s.repo.UpdateTask task).2] := rfl

/-- C14: for every scheduler state and every one-off task with trigger
timestamp `t`, `ScheduleTask` returns ok, adds no entry to the cron engine (its
entries are among the earlier ones and its id counter is unchanged), leaves the
registry without an entry for the task's id, the engine entry registered for
the id before being cancelled, and makes one store call, an `UpdateTask` of the
task with `next_run = t`. -/
theorem ScheduleTask_one_off (lib : CronLib) (s : Scheduler) (task : Task) (t : Time)
    (hk : task.Trigger.Kind = TriggerOneOff) (hd : task.Trigger.DateTime = some t) :
    (s.ScheduleTask lib task).2.2 = none ∧
    (s.ScheduleTask lib task).2.1 = { task with NextRun := some t } ∧
    (∀ e ∈ (s.ScheduleTask lib task).1.cron.entries, e ∈ s.cron.entries) ∧
    (s.ScheduleTask lib task).1.cron.nextID = s.cron.nextID ∧
    (s.ScheduleTask lib task).1.jobs.get task.ID = none ∧
    (s.ScheduleTask lib task).1.jobs.countFor task.ID = 0 ∧
    (∀ eid, s.jobs.get task.ID = some eid →
      ∀ e ∈ (s.ScheduleTask lib task).1.cron.entries, e.ID ≠ eid) ∧
    (∃ err, (s.ScheduleTask lib task).1.trace
      = s.trace ++ [Effect.updateTask { task with NextRun := some t } err]) := by
  rw [Scheduler.ScheduleTask_oneOff_eq lib s task t hk hd]
  refine ⟨rfl, rfl, Scheduler.unregister_entries_subset s task.ID,
    Scheduler.unregister_nextID s task.ID, Scheduler.unregister_get s task.ID, ?_,
    fun eid h => Scheduler.unregister_cancels s task.ID eid h, ?_⟩
  · show (s.unregister task.ID).jobs.countFor task.ID = 0
    rw [Scheduler.unregister_jobs]
    exact Jobs.countFor_delete _ _
  · exact ⟨_, by rw [Scheduler.persist_trace, Scheduler.unregister_trace]⟩

theorem ScheduleTask_one_off_witness :
    (runningScheduler.ScheduleTask exampleLib { exampleOneOffTask with ID := 7 }).2.2 = none ∧
      (runningScheduler.ScheduleTask exampleLib
        { exampleOneOffTask with ID := 7 }).1.jobs.get 7 = none ∧
      (∀ e ∈ (runningScheduler.ScheduleTask exampleLib
        { exampleOneOffTask with ID := 7 }).1.cron.entries, e.ID ≠ 1) :=
  ⟨(ScheduleTask_one_off exampleLib runningScheduler { exampleOneOffTask with ID := 7 } 100
      rfl rfl).1,
   (ScheduleTask_one_off exampleLib runningScheduler { exampleOneOffTask with ID := 7 } 100
      rfl rfl).2.2.2.2.1,
   (ScheduleTask_one_off exampleLib runningScheduler { exampleOneOffTask with ID := 7 } 100
      rfl rfl).2.2.2.2.2.2.1 1 (by decide)⟩

theorem Cron.EntryNext_append_fresh (entries : List Entry) (e : Entry)
    (hfresh : ∀ x ∈ entries, x.ID ≠ e.ID) (running : Bool) (nextID : EntryID) :
    Cron.EntryNext { entries := entries ++ [e], nextID := nextID, running := running } e.ID
      = e.Next := by
  have hnone : entries.find? (fun x => x.ID == e.ID) = none := by
    rw [List.find?_eq_none]
    intro x hx
    simpa using hfresh x hx
  simp [Cron.EntryNext, List.find?_append, hnone]

/-- C15, as the code has it by design: when the trigger carries the field of its
kind, an ok from `ScheduleTask` leaves the task with a non-null `next_run`, the
trigger's timestamp for a one-off trigger and, for a cron trigger scheduled on
a running engine (whose entry ids were issued by its counter), the schedule's
next fire time; for a cron trigger without expression, a one-off trigger without
timestamp or any other kind, `ScheduleTask` returns ok and leaves `next_run`
as it was. -/
theorem ScheduleTask_next_run (lib : CronLib) (s : Scheduler) (task : Task) :
    (∀ t, task.Trigger.Kind = TriggerOneOff → task.Trigger.DateTime = some t →
      (s.ScheduleTask lib task).2.2 = none ∧ (s.ScheduleTask lib task).2.1.NextRun = some t) ∧
    (∀ expr, task.Trigger.Kind = TriggerCron → task.Trigger.Cron = some expr →
      (s.ScheduleTask lib task).2.2 = none →
      (s.ScheduleTask lib task).2.1.NextRun ≠ none ∧
      (s.cron.running = true → (∀ e ∈ s.cron.entries, e.ID ≤ s.cron.nextID) →
        (s.ScheduleTask lib task).2.1.NextRun = some (lib.next expr (readClock s.clock).1))) ∧
    (task.Trigger.Kind = TriggerCron → task.Trigger.Cron = none →
      (s.ScheduleTask lib task).2.2 = none ∧ (s.ScheduleTask lib task).2.1 = task) ∧
    (task.Trigger.Kind = TriggerOneOff → task.Trigger.DateTime = none →
      (s.ScheduleTask lib task).2.2 = none ∧ (s.ScheduleTask lib task).2.1 = task) ∧
    (task.Trigger.Kind ≠ TriggerCron → task.Trigger.Kind ≠ TriggerOneOff →
      (s.ScheduleTask lib task).2.2 = none ∧ (s.ScheduleTask lib task).2.1 = task) := by
  refine ⟨?_, ?_, ?_, ?_, ?_⟩
  · intro t hk hd
    rw [Scheduler.ScheduleTask_oneOff_eq lib s task t hk hd]
    exact ⟨rfl, rfl⟩
  · intro expr hk hc hok
    cases hp : lib.parse expr with
    | some err =>
      have hres : s.ScheduleTask lib task = (s.unregister task.ID, task, some err) := by
        unfold Scheduler.ScheduleTask Scheduler.scheduleCronTask Cron.AddFunc
        simp only [hk, hc, hp, beq_self_eq_true, if_true]
      rw [hres] at hok
      cases hok
    | none =>
      by_cases hr : (s.unregister task.ID).cron.running = true
      · have hres : (s.ScheduleTask lib task).2.1
            = { task with NextRun := some (Cron.EntryNext
                { entries := (s.unregister task.ID).cron.entries ++
                    [{ ID := (s.unregister task.ID).cron.nextID + 1, spec := expr,
                       Next := lib.next expr (readClock (s.unregister task.ID).clock).1,
                       job := task }],
                  nextID := (s.unregister task.ID).cron.nextID + 1,
                  running := (s.unregister task.ID).cron.running }
                ((s.unregister task.ID).cron.nextID + 1)) } := by
          unfold Scheduler.ScheduleTask Scheduler.scheduleCronTask Cron.AddFunc
          simp only [hk, hc, hp, hr, beq_self_eq_true, if_true]
        rw [hres]
        refine ⟨by simp, ?_⟩
        intro _ hfresh
        have hf : ∀ x ∈ (s.unregister task.ID).cron.entries,
            x.ID ≠ (s.unregister task.ID).cron.nextID + 1 := by
          intro x hx
          have h1 := hfresh x (Scheduler.unregister_entries_subset s task.ID x hx)
          rw [Scheduler.unregister_nextID]
          exact Nat.ne_of_lt (Nat.lt_succ_of_le h1)
        have hnext := Cron.EntryNext_append_fresh (s.unregister task.ID).cron.entries
          { ID := (s.unregister task.ID).cron.nextID + 1, spec := expr,
            Next := lib.next expr (readClock (s.unregister task.ID).clock).1, job := task }
          hf (s.unregister task.ID).cron.running ((s.unregister task.ID).cron.nextID + 1)
        dsimp only at hnext
        rw [hnext, Scheduler.unregister_clock]
      · have hres : ∃ n, (s.ScheduleTask lib task).2.1 = { task with NextRun := some n } := by
          unfold Scheduler.ScheduleTask Scheduler.scheduleCronTask Cron.AddFunc
          simp only [hk, hc, hp, hr, beq_self_eq_true, if_true]
          exact ⟨_, rfl⟩
        obtain ⟨n, hn⟩ := hres
        rw [hn]
        refine ⟨by simp, ?_⟩
        intro hrun
        rw [Scheduler.unregister_running] at hr
        exact absurd hrun hr
  · intro hk hc
    have hres : s.ScheduleTask lib task = (s.unregister task.ID, task, none) := by
      unfold Scheduler.ScheduleTask Scheduler.scheduleCronTask
      simp only [hk, hc, beq_self_eq_true, if_true]
    rw [hres]
    exact ⟨rfl, rfl⟩
  · intro hk hd
    have hres : s.ScheduleTask lib task = (s.unregister task.ID, task, none) := by
      unfold Scheduler.ScheduleTask Scheduler.scheduleOneOffTask
      simp only [hk, hd, kind_oneOff_ne_cron, beq_self_eq_true, if_true, Bool.false_eq_true,
        if_false]
    rw [hres]
    exact ⟨rfl, rfl⟩
  · intro h1 h2
    unfold Scheduler.ScheduleTask
    simp [h1, h2]

theorem ScheduleTask_next_run_witness :
    (runningScheduler.ScheduleTask exampleLib exampleCronTask).2.1.NextRun = some 25 :=
  ((ScheduleTask_next_run exampleLib runningScheduler exampleCronTask).2.1 "*/5 * * * * *"
    rfl rfl (by decide)).2 rfl (by decide)

/-- C15 as stated fails: the task of kind `cron` without an expression is in
status `scheduled`, `ScheduleTask` returns ok for it, and its `next_run` is
null afterwards. -/
theorem ScheduleTask_ok_without_next_run :
    cronWithoutExpression.Status = StatusScheduled ∧
      ((NewScheduler emptyRepo []).ScheduleTask exampleLib cronWithoutExpression).2.2 = none ∧
      ((NewScheduler emptyRepo []).ScheduleTask exampleLib cronWithoutExpression).2.1.NextRun
        = none := by
  decide

theorem Jobs.get_delete_other (m : Jobs) (id other : UUID) (h : other ≠ id) :
    (m.delete id).get other = m.get other := by
  unfold Jobs.get Jobs.delete
  rw [List.find?_filter]
  congr 2
  funext p
  by_cases hq : p.1 = other
  · have e1 : (p.1 == id) = false := by
      have : ¬ p.1 = id := fun h1 => h (hq.symm.trans h1)
      simpa using this
    have e2 : (p.1 == other) = true := by simpa using hq
    rw [e1, e2]; rfl
  · have e2 : (p.1 == other) = false := by simpa using hq
    rw [e2]; simp

theorem Jobs.countFor_delete_other (m : Jobs) (id other : UUID) (h : other ≠ id) :
    (m.delete id).countFor other = m.countFor other := by
  unfold Jobs.countFor Jobs.delete
  rw [List.filter_filter]
  congr 2
  funext p
  by_cases hq : p.1 = other
  · have e1 : (p.1 == id) = false := by
      have : ¬ p.1 = id := fun h1 => h (hq.symm.trans h1)
      simpa using this
    have e2 : (p.1 == other) = true := by simpa using hq
    rw [e1, e2]; rfl
  · have e2 : (p.1 == other) = false := by simpa using hq
    rw [e2]; simp

/-- C16: `RemoveTask` makes no call to the store: the repository (every row and
field of it), the trace and the clock are the same before and after; the
registry entries of every other task id are unchanged, and so are the engine
entries other than the one registered for the removed id. -/
theorem RemoveTask_frame (s : Scheduler) (id : UUID) :
    (s.RemoveTask id).repo = s.repo ∧
    (s.RemoveTask id).trace = s.trace ∧
    (s.RemoveTask id).clock = s.clock ∧
    (∀ other, other ≠ id →
      (s.RemoveTask id).jobs.get other = s.jobs.get other ∧
      (s.RemoveTask id).jobs.countFor other = s.jobs.countFor other) ∧
    (∀ e ∈ s.cron.entries, s.jobs.get id ≠ some e.ID → e ∈ (s.RemoveTask id).cron.entries) := by
  refine ⟨Scheduler.unregister_repo s id, Scheduler.unregister_trace s id,
    Scheduler.unregister_clock s id, ?_, fun e he h => Scheduler.unregister_keeps s id e he h⟩
  intro other hne
  show (s.unregister id).jobs.get other = _ ∧ (s.unregister id).jobs.countFor other = _
  rw [Scheduler.unregister_jobs]
  exact ⟨Jobs.get_delete_other _ _ _ hne, Jobs.countFor_delete_other _ _ _ hne⟩

theorem RemoveTask_frame_witness :
    (({ runningScheduler with jobs := [(7, 1), (9, 2)] } : Scheduler).RemoveTask 9).jobs.get 7
      = some 1 :=
  ((RemoveTask_frame { runningScheduler with jobs := [(7, 1), (9, 2)] } 9).2.2.2.1 7
    (by decide)).1

/-! ## Loading the scheduled tasks at start -/

theorem Jobs.countFor_set_other (m : Jobs) (id other : UUID) (e : EntryID) (h : other ≠ id) :
    (m.set id e).countFor other = m.countFor other := by
  have hb : (id == other) = false := by
    have : ¬ id = other := fun h1 => h h1.symm
    simpa using this
  have hd := Jobs.countFor_delete_other m id other h
  simp only [Jobs.countFor] at hd
  simp [Jobs.set, Jobs.countFor, List.filter_append, List.filter_cons, hb, hd]

/-- The registry after `ScheduleTask`: the id unregistered, and on the path that
registers, registered again. -/
theorem Scheduler.ScheduleTask_jobs_cases (lib : CronLib) (s : Scheduler) (task : Task) :
    (s.ScheduleTask lib task).1.jobs = s.jobs.delete task.ID ∨
      ∃ e, (s.ScheduleTask lib task).1.jobs = (s.jobs.delete task.ID).set task.ID e := by
  have hj := Scheduler.unregister_jobs s task.ID
  by_cases hk : task.Trigger.Kind = TriggerCron
  · cases hc : task.Trigger.Cron with
    | none =>
      left
      unfold Scheduler.ScheduleTask Scheduler.scheduleCronTask
      simp only [hk, hc, beq_self_eq_true, if_true]
      exact hj
    | some expr =>
      cases hp : lib.parse expr with
      | some err =>
        left
        unfold Scheduler.ScheduleTask Scheduler.scheduleCronTask Cron.AddFunc
        simp only [hk, hc, hp, beq_self_eq_true, if_true]
        exact hj
      | none =>
        right
        exact ⟨_, (Scheduler.ScheduleTask_cron_accepted lib s task expr hk hc hp).1⟩
  · left
    by_cases hk2 : task.Trigger.Kind = TriggerOneOff
    · cases hd : task.Trigger.DateTime with
      | none =>
        unfold Scheduler.ScheduleTask Scheduler.scheduleOneOffTask
        simp only [hk2, hd, kind_oneOff_ne_cron, beq_self_eq_true, if_true, Bool.false_eq_true,
          if_false]
        exact hj
      | some t =>
        rw [Scheduler.ScheduleTask_oneOff_eq lib s task t hk2 hd]
        exact hj
    · unfold Scheduler.ScheduleTask
      simp only [beq_iff_eq, hk, hk2, if_false]
      exact hj

theorem Scheduler.ScheduleTask_countFor_other (lib : CronLib) (s : Scheduler) (task : Task)
    (id : UUID) (h : id ≠ task.ID) :
    (s.ScheduleTask lib task).1.jobs.countFor id = s.jobs.countFor id := by
  rcases Scheduler.ScheduleTask_jobs_cases lib s task with h1 | ⟨e, h1⟩
  · rw [h1]; exact Jobs.countFor_delete_other _ _ _ h
  · rw [h1, Jobs.countFor_set_other _ _ _ _ h]; exact Jobs.countFor_delete_other _ _ _ h

theorem Scheduler.scheduleAll_countFor (lib : CronLib) (id : UUID) (tasks : List Task) :
    ∀ s : Scheduler, id ∉ tasks.map Task.ID →
      (tasks.foldl (fun acc task => (acc.ScheduleTask lib task).1) s).jobs.countFor id
        = s.jobs.countFor id := by
  induction tasks with
  | nil => intro s _; rfl
  | cons t ts ih =>
    intro s h
    simp only [List.map_cons, List.mem_cons, not_or] at h
    rw [List.foldl, ih _ h.2]
    exact Scheduler.ScheduleTask_countFor_other lib s t id h.1

theorem Scheduler.loadTasks_ok (lib : CronLib) (s : Scheduler) (repo : Repository)
    (tasks : List Task) (hq : s.repo.GetScheduledTasks = (repo, .ok tasks)) :
    s.loadTasks lib
      = (tasks.foldl (fun acc task => (acc.ScheduleTask lib task).1) { s with repo := repo },
          false) := by
  unfold Scheduler.loadTasks
  rw [hq]

theorem Scheduler.loadTasks_error (lib : CronLib) (s : Scheduler) (repo : Repository)
    (msg : String) (hq : s.repo.GetScheduledTasks = (repo, .error msg)) :
    s.loadTasks lib = ({ s with repo := repo }, true) := by
  unfold Scheduler.loadTasks
  rw [hq]

theorem Scheduler.Start_flag (lib : CronLib) (s : Scheduler) :
    (s.Start lib).2 = (s.loadTasks lib).2 := by
  unfold Scheduler.Start
  rcases h : s.loadTasks lib with ⟨s1, flag⟩
  cases flag <;> rfl

theorem Scheduler.Start_jobs (lib : CronLib) (s : Scheduler) :
    (s.Start lib).1.jobs = (s.loadTasks lib).1.jobs := by
  unfold Scheduler.Start
  rcases h : s.loadTasks lib with ⟨s1, flag⟩
  cases flag <;> rfl

/-- C13: `Start` returns an error exactly when the `GetScheduledTasks` call of
`loadTasks` does; when the load succeeds, the loaded tasks go through
`ScheduleTask` one after the other in the order of the list, the call for a
task being made on the state its predecessor left whatever that one returned,
so that every loaded task with an accepted cron trigger (the ids of the list
being distinct) is in the registry after `Start` even if other tasks failed. -/
theorem Start_loads_every_task (lib : CronLib) (s : Scheduler) :
    ((s.Start lib).2 = true ↔ ∃ repo msg, s.repo.GetScheduledTasks = (repo, .error msg)) ∧
    ∀ repo tasks, s.repo.GetScheduledTasks = (repo, .ok tasks) →
      (s.loadTasks lib).1
        = tasks.foldl (fun acc task => (acc.ScheduleTask lib task).1) { s with repo := repo } ∧
      (∀ pre t post, tasks = pre ++ t :: post →
        (s.loadTasks lib).1
          = post.foldl (fun acc task => (acc.ScheduleTask lib task).1)
              ((pre.foldl (fun (acc : Scheduler) task => (acc.ScheduleTask lib task).1)
                { s with repo := repo }).ScheduleTask lib t).1) ∧
      ((tasks.map Task.ID).Nodup → ∀ t ∈ tasks, ∀ expr, t.Trigger.Kind = TriggerCron →
        t.Trigger.Cron = some expr → lib.parse expr = none →
        (s.Start lib).1.jobs.countFor t.ID = 1) := by
  constructor
  · rw [Scheduler.Start_flag]
    rcases hq : s.repo.GetScheduledTasks with ⟨repo, res⟩
    cases res with
    | error msg =>
      rw [Scheduler.loadTasks_error lib s repo msg hq]
      exact ⟨fun _ => ⟨repo, msg, rfl⟩, fun _ => rfl⟩
    | ok tasks =>
      rw [Scheduler.loadTasks_ok lib s repo tasks hq]
      constructor
      · intro h; cases h
      · rintro ⟨repo1, msg, h⟩
        cases h
  · intro repo tasks hq
    have hload := Scheduler.loadTasks_ok lib s repo tasks hq
    refine ⟨by rw [hload], ?_, ?_⟩
    · intro pre t post hsplit
      rw [hload, hsplit, List.foldl_append, List.foldl_cons]
    · intro hn t ht expr hk hc hp
      obtain ⟨pre, post, hsplit⟩ := List.append_of_mem ht
      have hnot : t.ID ∉ post.map Task.ID := by
        rw [hsplit, List.map_append, List.map_cons] at hn
        exact (List.nodup_cons.1 (List.nodup_append.1 hn).2.1).1
      rw [Scheduler.Start_jobs, hload, hsplit, List.foldl_append, List.foldl_cons,
        Scheduler.scheduleAll_countFor lib t.ID post _ hnot,
        (Scheduler.ScheduleTask_cron_accepted lib _ t expr hk hc hp).1]
      exact Jobs.countFor_set _ _ _

theorem Start_loads_every_task_witness :
    ((NewScheduler { emptyRepo with tasks := [badCronTask, exampleCronTask] } []).Start
      exampleLib).1.jobs.countFor 7 = 1 :=
  ((Start_loads_every_task exampleLib
      (NewScheduler { emptyRepo with tasks := [badCronTask, exampleCronTask] } [])).2
    { emptyRepo with tasks := [badCronTask, exampleCronTask] } [badCronTask, exampleCronTask]
    rfl).2.2 (by decide) exampleCronTask (by decide) "*/5 * * * * *" rfl rfl (by decide)

/-! ## The task service -/

/-- The only error of `ScheduleTask` is the parser's, for a cron trigger. -/
theorem Scheduler.ScheduleTask_error_cases (lib : CronLib) (s : Scheduler) (task : Task)
    (err : String) (h : (s.ScheduleTask lib task).2.2 = some err) :
    task.Trigger.Kind = TriggerCron ∧ ∃ expr, task.Trigger.Cron = some expr ∧
      lib.parse expr = some err := by
  by_cases hk : task.Trigger.Kind = TriggerCron
  · refine ⟨hk, ?_⟩
    cases hc : task.Trigger.Cron with
    | none =>
      have hres : s.ScheduleTask lib task = (s.unregister task.ID, task, none) := by
        unfold Scheduler.ScheduleTask Scheduler.scheduleCronTask
        simp only [hk, hc, beq_self_eq_true, if_true]
      rw [hres] at h
      cases h
    | some expr =>
      refine ⟨expr, rfl, ?_⟩
      cases hp : lib.parse expr with
      | none =>
        rw [(Scheduler.ScheduleTask_cron_accepted lib s task expr hk hc hp).2] at h
        cases h
      | some err1 =>
        have hres : s.ScheduleTask lib task = (s.unregister task.ID, task, some err1) := by
          unfold Scheduler.ScheduleTask Scheduler.scheduleCronTask Cron.AddFunc
          simp only [hk, hc, hp, beq_self_eq_true, if_true]
        rw [hres] at h
        exact h
  · exfalso
    by_cases hk2 : task.Trigger.Kind = TriggerOneOff
    · cases hd : task.Trigger.DateTime with
      | none =>
        have hres : s.ScheduleTask lib task = (s.unregister task.ID, task, none) := by
          unfold Scheduler.ScheduleTask Scheduler.scheduleOneOffTask
          simp only [hk2, hd, kind_oneOff_ne_cron, beq_self_eq_true, if_true, Bool.false_eq_true,
            if_false]
        rw [hres] at h
        cases h
      | some t =>
        rw [Scheduler.ScheduleTask_oneOff_eq lib s task t hk2 hd] at h
        cases h
    · have hres : s.ScheduleTask lib task = (s.unregister task.ID, task, none) := by
        unfold Scheduler.ScheduleTask
        simp only [beq_iff_eq, hk, hk2, if_false]
      rw [hres] at h
      cases h

theorem kind_cron_ne_oneOff : (TriggerCron == TriggerOneOff) = false := by decide

/-- The parser `validateTrigger` builds has the options of the engine's parser. -/
theorem validateTriggerParser_eq_parse (lib : CronLib) :
    validateTriggerParser lib = lib.parse := rfl

/-- A trigger that `validateTrigger` accepts is scheduled without error. -/
theorem Scheduler.ScheduleTask_ok_of_valid (lib : CronLib) (clock : List Time)
    (s : Scheduler) (task : Task) (hv : (validateTrigger lib clock task.Trigger).1 = none) :
    (s.ScheduleTask lib task).2.2 = none := by
  cases hres : (s.ScheduleTask lib task).2.2 with
  | none => rfl
  | some err =>
    exfalso
    obtain ⟨hk, expr, hc, hp⟩ := Scheduler.ScheduleTask_error_cases lib s task err hres
    unfold validateTrigger at hv
    simp only [hk, hc, kind_cron_ne_oneOff, beq_self_eq_true, if_true, Bool.false_eq_true,
      if_false, validateTriggerParser_eq_parse, hp] at hv
    cases hv

theorem Repository.CreateTask_error (r : Repository) (task : Task)
    (h : (r.CreateTask task).2 = true) : (r.CreateTask task).1.tasks = r.tasks := by
  unfold Repository.CreateTask at h ⊢
  cases hf : (nextFault r.execFaults).1 with
  | true => simp [hf]
  | false => simp [hf] at h

/-- C20: the parser `validateTrigger` builds and the parser of the engine that
`NewScheduler` builds are the library's parser with the same options (seconds,
minutes, hours, day of month, month, day of week, descriptors); so for every
library, every trigger that `validateTrigger` accepts is scheduled by
`ScheduleTask` without error, from every scheduler state; and `CreateTask` fails
only on validation or on the insert, in both cases with the `tasks` table as it
was and without a call to the scheduler, never after the task was persisted. -/
theorem validateTrigger_implies_schedulable (lib : CronLib) :
    validateTriggerParser lib = lib.newParser WithSeconds ∧
    (∀ (spec : String) (c : Cron) (clock : List Time) (job : Task) (err : String),
      (Cron.AddFunc lib c clock spec job).2.2 = .error err →
        lib.newParser WithSeconds spec = some err) ∧
    (∀ (clock : List Time) (trigger : Trigger),
      (validateTrigger lib clock trigger).1 = none →
      ∀ (s : Scheduler) (task : Task), task.Trigger = trigger →
        (s.ScheduleTask lib task).2.2 = none) ∧
    (∀ (svc : TaskService) (req : CreateTaskRequest) (msg : String),
      (svc.CreateTask lib req).2 = .error msg →
      (svc.CreateTask lib req).1.scheduler.repo.tasks = svc.scheduler.repo.tasks ∧
      (svc.CreateTask lib req).1.calls = svc.calls) := by
  refine ⟨rfl, ?_, ?_, ?_⟩
  · intro spec c clock job err h
    unfold Cron.AddFunc at h
    cases hp : lib.parse spec with
    | some e =>
      simp only [hp] at h
      have he : e = err := by
        simpa using h
      rw [← he]
      exact hp
    | none =>
      simp only [hp] at h
      split_ifs at h
  · intro clock trigger hv s task ht
    exact Scheduler.ScheduleTask_ok_of_valid lib clock s task (ht ▸ hv)
  · intro svc req msg
    unfold TaskService.CreateTask
    rcases hv : validateTrigger lib svc.scheduler.clock req.Trigger with ⟨verr, clock1⟩
    cases verr with
    | some err => intro _; exact ⟨rfl, rfl⟩
    | none =>
      simp only []
      rcases hins : svc.scheduler.repo.CreateTask
        (newTask req (newUUID svc.ids).1 (readClock clock1).1) with ⟨repo, err⟩
      cases err with
      | true =>
        intro _
        have h1 := Repository.CreateTask_error svc.scheduler.repo
          (newTask req (newUUID svc.ids).1 (readClock clock1).1) (by rw [hins])
        rw [hins] at h1
        exact ⟨h1, rfl⟩
      | false =>
        simp only [Bool.false_eq_true, if_false]
        have hok := Scheduler.ScheduleTask_ok_of_valid lib svc.scheduler.clock
          { svc.scheduler with repo := repo, clock := (readClock clock1).2 }
          (newTask req (newUUID svc.ids).1 (readClock clock1).1) (by
            show (validateTrigger lib svc.scheduler.clock req.Trigger).1 = none
            rw [hv])
        rw [hok]
        intro h
        cases h

theorem validateTrigger_implies_schedulable_witness :
    (validateTrigger exampleLib [50] exampleCronTask.Trigger).1 = none ∧
      ((NewScheduler emptyRepo []).ScheduleTask exampleLib exampleCronTask).2.2 = none :=
  ⟨by decide,
   (validateTrigger_implies_schedulable exampleLib).2.2.1 [50]
      exampleCronTask.Trigger (by decide) (NewScheduler emptyRepo []) exampleCronTask rfl⟩

/-! ## Response headers written and read back -/

theorem wrapInt64_zero : wrapInt64 0 = 0 := by decide

theorem Repository.CreateTaskResult_stored (r : Repository) (res : TaskResult)
    (hexec : (nextFault r.execFaults).1 = false) :
    ∃ stored, (r.CreateTaskResult res).1.results = r.results ++ [stored] ∧
      (r.CreateTaskResult res).1.queryFaults = r.queryFaults ∧
      stored.TaskID = res.TaskID ∧ stored.ID = res.ID ∧ stored.StatusCode = res.StatusCode ∧
      stored.ResponseBody = res.ResponseBody ∧
      (∀ h, res.ResponseHeaders = some h → h ≠ "" → h ≠ "null" →
        stored.ResponseHeaders = some h) ∧
      (res.ResponseHeaders = none ∨ res.ResponseHeaders = some "" ∨
        res.ResponseHeaders = some "null" → stored.ResponseHeaders = none) := by
  unfold Repository.CreateTaskResult
  rcases hnf : nextFault r.execFaults with ⟨fault, rest⟩
  rw [hnf] at hexec
  simp only at hexec
  subst hexec
  refine ⟨_, rfl, rfl, rfl, rfl, rfl, rfl, ?_, ?_⟩
  · intro h hh hne hnull
    have hlen : h.length > 0 := by simpa using (string_length_pos_iff h).2 hne
    simp [hh, hlen, hnull]
  · rintro (hh | hh | hh) <;> simp [hh]

theorem Repository.GetTaskResults_single (r : Repository) (taskID : UUID) (stored : TaskResult)
    (page limit : Int)
    (hres : r.results.filter (fun row => row.TaskID == taskID) = [stored])
    (hq1 : (nextFault r.queryFaults).1 = false)
    (hq2 : (nextFault (nextFault r.queryFaults).2).1 = false)
    (hpage : page = 0 ∨ page = 1) (hlimit : 0 ≤ limit) :
    (r.GetTaskResults taskID page limit).2 = .ok ([scanResult stored], 1) := by
  have hp : (if (page == 0) = true then (1 : Int) else page) = 1 := by
    rcases hpage with h | h <;> simp [h]
  unfold Repository.GetTaskResults
  simp only [hp, hq1, hq2, hres, sub_self, wrapInt64_zero, zero_mul]
  by_cases h0 : limit = 0
  · subst h0
    simp [List.insertionSort]
  · have hpos : ¬ limit < 0 := by omega
    obtain ⟨n, hn⟩ : ∃ n, limit.toNat = n + 1 := ⟨limit.toNat - 1, by omega⟩
    simp [h0, hpos, hn, List.insertionSort]

/-- Every row `GetTaskResults` returns is the scan of a stored row of the task. -/
theorem Repository.GetTaskResults_rows (r : Repository) (taskID : UUID) (page limit : Int)
    (rows : List TaskResult) (total : Int)
    (h : (r.GetTaskResults taskID page limit).2 = .ok (rows, total)) :
    ∀ row ∈ rows, ∃ stored ∈ r.results, stored.TaskID = taskID ∧ row = scanResult stored := by
  have key : ∀ (off lim : Nat),
      List.map scanResult ((((r.results.filter (fun row => row.TaskID == taskID)).insertionSort
        runAtGE).drop off).take lim) = rows →
      ∀ row ∈ rows, ∃ stored ∈ r.results, stored.TaskID = taskID ∧ row = scanResult stored := by
    intro off lim hrows row hrow
    rw [← hrows, List.mem_map] at hrow
    obtain ⟨stored, hmem, heq⟩ := hrow
    have h1 := List.mem_of_mem_drop (List.mem_of_mem_take hmem)
    rw [(List.perm_insertionSort runAtGE _).mem_iff, List.mem_filter] at h1
    exact ⟨stored, h1.1, by simpa using h1.2, heq.symm⟩
  unfold Repository.GetTaskResults at h
  simp only [] at h
  split_ifs at h <;>
    first
    | (cases h; done)
    | (simp only [Except.ok.injEq, Prod.mk.injEq] at h; exact key _ _ h.1)

/-- C18: a result written with `CreateTaskResult` is stored as one more row;
read back with `GetTaskResults`, that row carries the header text that was
written when the text is neither empty nor the literal `null` (so every JSON
object, the empty object included, comes back as it was) and the literal
`null` when the result carried no headers (nil, empty or `null` text).  Every
row a read returns is the scan of a stored row, and the first page read from a
store that held no other result of the task is exactly the row written. -/
theorem response_headers_round_trip (r : Repository) (res : TaskResult)
    (hexec : (nextFault r.execFaults).1 = false) :
    ∃ stored, (r.CreateTaskResult res).1.results = r.results ++ [stored] ∧
      (scanResult stored).ID = res.ID ∧ (scanResult stored).TaskID = res.TaskID ∧
      (∀ h, res.ResponseHeaders = some h → h ≠ "" → h ≠ "null" →
        (scanResult stored).ResponseHeaders = some h) ∧
      (res.ResponseHeaders = some "\x7b\x7d" →
        (scanResult stored).ResponseHeaders = some "\x7b\x7d") ∧
      (res.ResponseHeaders = none ∨ res.ResponseHeaders = some "" ∨
        res.ResponseHeaders = some "null" → (scanResult stored).ResponseHeaders = some "null") ∧
      (∀ page limit rows total,
        ((r.CreateTaskResult res).1.GetTaskResults res.TaskID page limit).2 = .ok (rows, total) →
        ∀ row ∈ rows, ∃ st ∈ (r.CreateTaskResult res).1.results, row = scanResult st) ∧
      (∀ page limit, (∀ row ∈ r.results, row.TaskID ≠ res.TaskID) →
        (nextFault r.queryFaults).1 = false →
        (nextFault (nextFault r.queryFaults).2).1 = false →
        page = 0 ∨ page = 1 → 0 ≤ limit →
        ((r.CreateTaskResult res).1.GetTaskResults res.TaskID page limit).2
          = .ok ([scanResult stored], 1)) := by
  obtain ⟨stored, h1, h2, h3, h4, _, _, h7, h8⟩ := Repository.CreateTaskResult_stored r res hexec
  have hsome : ∀ h, stored.ResponseHeaders = some h →
      (scanResult stored).ResponseHeaders = some h := by
    intro h hh
    simp [scanResult, hh, responseHeadersColumn]
  have hnone : stored.ResponseHeaders = none →
      (scanResult stored).ResponseHeaders = some "null" := by
    intro hh
    simp [scanResult, hh]
  have hid : (scanResult stored).ID = stored.ID ∧ (scanResult stored).TaskID = stored.TaskID := by
    unfold scanResult
    cases stored.ResponseHeaders <;> exact ⟨rfl, rfl⟩
  refine ⟨stored, h1, by rw [hid.1, h4], by rw [hid.2, h3], ?_, ?_, ?_, ?_, ?_⟩
  · intro h hh hne hnull
    exact hsome h (h7 h hh hne hnull)
  · intro hh
    exact hsome _ (h7 _ hh (by decide) (by decide))
  · intro hh
    exact hnone (h8 hh)
  · intro page limit rows total hread row hrow
    obtain ⟨st, hst, _, heq⟩ := Repository.GetTaskResults_rows _ _ _ _ _ _ hread row hrow
    exact ⟨st, hst, heq⟩
  · intro page limit hnew hq1 hq2 hpage hlimit
    have hfilter : (r.CreateTaskResult res).1.results.filter
        (fun row => row.TaskID == res.TaskID) = [stored] := by
      rw [h1, List.filter_append]
      have hold : r.results.filter (fun row => row.TaskID == res.TaskID) = [] := by
        rw [List.filter_eq_nil_iff]
        intro row hrow
        simpa using hnew row hrow
      rw [hold]
      simp [h3]
    exact Repository.GetTaskResults_single (r.CreateTaskResult res).1 res.TaskID stored
      page limit hfilter (by rw [h2]; exact hq1) (by rw [h2]; exact hq2) hpage hlimit

theorem response_headers_round_trip_witness :
    ∃ row, ((emptyRepo.CreateTaskResult emptyObjectResult).1.GetTaskResults 1 1 10).2
        = .ok ([row], 1) ∧ row.ResponseHeaders = some "\x7b\x7d" := by
  obtain ⟨stored, _, _, _, _, h5, _, _, h8⟩ :=
    response_headers_round_trip emptyRepo emptyObjectResult rfl
  exact ⟨scanResult stored, h8 1 10 (by decide) rfl rfl (Or.inr rfl) (by decide), h5 rfl⟩

/-! ## Registry and engine after a tick -/

/-- C19, the code at the failing input: task 1 is registered with the engine
(registry entry 1 to engine entry 1) while the store holds it as a due one-off
task; the tick drops the registry entry and leaves the engine entry, which
`RemoveTask` can no longer cancel.  The same happens to task 7 when a tick runs
between the store write and the `ScheduleTask` call of an update that turns it
into a one-off task: the later `ScheduleTask` and `RemoveTask` find no registry
entry and the engine entry stays. -/
theorem checkOneOffTasks_orphans_engine_entry :
    registeredButDue.jobs = [(1, 1)] ∧
    registeredButDue.cron.entries.map Entry.ID = [1] ∧
    registeredButDue.checkOneOffTasks.jobs = [] ∧
    registeredButDue.checkOneOffTasks.cron.entries.map Entry.ID = [1] ∧
    (registeredButDue.checkOneOffTasks.RemoveTask 1).cron.entries.map Entry.ID = [1] ∧
    tickBeforeReschedule.jobs = [] ∧
    tickBeforeReschedule.cron.entries.map Entry.ID = [1] ∧
    (((tickBeforeReschedule.ScheduleTask exampleLib cronTurnedOneOff).1.RemoveTask 7).cron.entries.map
      Entry.ID) = [1] := by
  decide

/-- C11, the code at the failing input: after the tick that dropped the registry
entry of task 1 and left its engine entry, `ScheduleTask` is called for task 1
with a cron expression the parser refuses.  It returns the parser's error, the
registry has no entry for task 1 and the store is not called, but the engine
still holds entry 1, whose job is task 1: `ScheduleTask` cancels only the entry
the registry records, and the tick had removed that record. -/
theorem ScheduleTask_rejected_keeps_orphan_entry :
    registeredButDue.checkOneOffTasks.jobs = [] ∧
    registeredButDue.checkOneOffTasks.cron.entries.map (fun e => (e.ID, e.job.ID)) = [(1, 1)] ∧
    rescheduledWithBadCron.ID = 1 ∧
    rescheduledWithBadCron.Trigger.Kind = TriggerCron ∧
    rescheduledWithBadCron.Trigger.Cron = some "every day" ∧
    exampleLib.parse "every day" = some "bad expression" ∧
    (registeredButDue.checkOneOffTasks.ScheduleTask exampleLib rescheduledWithBadCron).2.2
      = some "bad expression" ∧
    (registeredButDue.checkOneOffTasks.ScheduleTask exampleLib rescheduledWithBadCron).1.jobs.get 1
      = none ∧
    (registeredButDue.checkOneOffTasks.ScheduleTask exampleLib rescheduledWithBadCron).1.repo
      = registeredButDue.checkOneOffTasks.repo ∧
    (registeredButDue.checkOneOffTasks.ScheduleTask exampleLib
        rescheduledWithBadCron).1.cron.entries.map (fun e => (e.ID, e.job.ID)) = [(1, 1)] ∧
    ¬ (∀ e ∈ (registeredButDue.checkOneOffTasks.ScheduleTask exampleLib
        rescheduledWithBadCron).1.cron.entries, e.job.ID ≠ rescheduledWithBadCron.ID) := by
  decide

/-! ## Pagination metadata -/

theorem wrapInt64_of_range (x : Int) (h1 : 0 ≤ x) (h2 : x < 2 ^ 63) : wrapInt64 x = x := by
  unfold wrapInt64
  omega

/-- The quotient and remainder facts behind the page count. -/
theorem totalPages_ceiling (limit total : Int) (hl : 0 < limit) (ht : 0 ≤ total) :
    (total % limit > 0 →
      total ≤ (total / limit + 1) * limit ∧ total / limit + 1 ≤ total ∧
      ∀ n : Int, total ≤ n * limit → total / limit + 1 ≤ n) ∧
    (¬ total % limit > 0 →
      total ≤ (total / limit) * limit ∧ ∀ n : Int, total ≤ n * limit → total / limit ≤ n) ∧
    0 ≤ total / limit ∧ total / limit ≤ total := by
  have hdiv := Int.emod_add_ediv' total limit
  have hnn := Int.emod_nonneg total (Int.ne_of_gt hl)
  have hlt := Int.emod_lt_of_pos total hl
  have hq : 0 ≤ total / limit := Int.ediv_nonneg ht (le_of_lt hl)
  have hqle : total / limit ≤ total := by nlinarith
  refine ⟨?_, ?_, hq, hqle⟩
  · intro hr
    refine ⟨by nlinarith, by nlinarith, ?_⟩
    intro n hn
    by_contra hcon
    have : n ≤ total / limit := by omega
    nlinarith
  · intro hr
    have hr0 : total % limit = 0 := by omega
    refine ⟨by nlinarith, ?_⟩
    intro n hn
    by_contra hcon
    have : n + 1 ≤ total / limit := by omega
    nlinarith

theorem CalculatePaginationMeta_of_pos (page limit total : Int) (hl : 0 < limit)
    (ht : 0 ≤ total) (hr : total < 2 ^ 63) :
    ∃ meta, CalculatePaginationMeta page limit total = some meta ∧
      meta.Page = page ∧ meta.Limit = limit ∧ meta.Total = total ∧
      total ≤ meta.TotalPages * limit ∧
      (∀ n : Int, total ≤ n * limit → meta.TotalPages ≤ n) ∧
      (total = 0 → meta.TotalPages = 0) := by
  obtain ⟨hpos, hzero, hq, hqle⟩ := totalPages_ceiling limit total hl ht
  have hne : (limit == 0) = false := by
    have : ¬ limit = 0 := Int.ne_of_gt hl
    simpa using this
  have htd : total.tdiv limit = total / limit := Int.tdiv_eq_ediv ht (le_of_lt hl)
  have htm : total.tmod limit = total % limit := Int.tmod_eq_emod ht (le_of_lt hl)
  have hw : wrapInt64 (total / limit) = total / limit :=
    wrapInt64_of_range _ hq (lt_of_le_of_lt hqle hr)
  unfold CalculatePaginationMeta
  simp only [hne, Bool.false_eq_true, if_false, htd, htm, hw]
  by_cases hrem : total % limit > 0
  · obtain ⟨h1, h2, h3⟩ := hpos hrem
    have hw1 : wrapInt64 (total / limit + 1) = total / limit + 1 :=
      wrapInt64_of_range _ (by omega) (lt_of_le_of_lt h2 hr)
    simp only [hrem, if_true, hw1]
    refine ⟨_, rfl, rfl, rfl, rfl, h1, h3, ?_⟩
    intro h0
    rw [h0] at hrem
    simp at hrem
  · obtain ⟨h1, h3⟩ := hzero hrem
    simp only [hrem, if_false]
    refine ⟨_, rfl, rfl, rfl, rfl, h1, h3, ?_⟩
    intro h0
    rw [h0]
    simp

theorem respondWithMeta_of_ne_zero {α : Type} (page limit total : Int) (data : List α)
    (h : limit ≠ 0) :
    respondWithMeta page limit total data ≠ .panic ∧
      ∀ d meta, respondWithMeta page limit total data = .success d meta →
        meta.Limit = limit ∧ meta.Page = page ∧ meta.Total = total := by
  have hne : (limit == 0) = false := by simpa using h
  unfold respondWithMeta CalculatePaginationMeta
  simp only [hne, Bool.false_eq_true, if_false]
  refine ⟨fun hc => (by cases hc), ?_⟩
  intro d meta hs
  cases hs
  exact ⟨rfl, rfl, rfl⟩

theorem defaultLimit_ne_zero (limit : Int) : (if limit == 0 then 10 else limit) ≠ 0 := by
  by_cases h : limit = 0
  · simp [h]
  · have : (limit == 0) = false := by simpa using h
    simp only [this, Bool.false_eq_true, if_false]
    exact h

theorem parsePageLimit_limit (atoi : String → Option Int) (pageStr limitStr : String) :
    0 < (parsePageLimit atoi pageStr limitStr).2 ∧
      (parsePageLimit atoi pageStr limitStr).2 ≤ 100 := by
  unfold parsePageLimit
  simp only []
  split_ifs with h1
  · cases atoi limitStr with
    | none => simp
    | some l =>
      simp only []
      split_ifs with h2
      · simp only [Bool.and_eq_true, decide_eq_true_eq] at h2
        exact h2
      · simp
  · simp

theorem Repository.ListTasks_ok (r r1 : Repository) (params : ListTasksParams)
    (rows : List Task) (total : Int) (h : r.ListTasks params = (r1, .ok (rows, total))) :
    0 ≤ (if params.Limit == 0 then 10 else params.Limit) ∧ 0 ≤ total := by
  unfold Repository.ListTasks at h
  simp only [] at h
  split_ifs at h <;>
    first
    | (cases h; done)
    | (simp only [Prod.mk.injEq, Except.ok.injEq, Bool.or_eq_true, decide_eq_true_eq,
          not_or, not_lt] at *
       refine ⟨by simp_all, ?_⟩
       rw [← h.2.2]
       exact Int.natCast_nonneg _)

theorem Repository.ListAllResults_ok (r r1 : Repository) (params : ListResultsParams)
    (rows : List TaskResult) (total : Int)
    (h : r.ListAllResults params = (r1, .ok (rows, total))) :
    0 ≤ (if params.Limit == 0 then 10 else params.Limit) ∧ 0 ≤ total := by
  unfold Repository.ListAllResults at h
  simp only [] at h
  split_ifs at h <;>
    first
    | (cases h; done)
    | (simp only [Prod.mk.injEq, Except.ok.injEq, Bool.or_eq_true, decide_eq_true_eq,
          not_or, not_lt] at *
       refine ⟨by simp_all, ?_⟩
       rw [← h.2.2]
       exact Int.natCast_nonneg _)

theorem Repository.GetTaskResults_ok (r r1 : Repository) (taskID : UUID) (page limit : Int)
    (rows : List TaskResult) (total : Int)
    (h : r.GetTaskResults taskID page limit = (r1, .ok (rows, total))) : 0 ≤ total := by
  unfold Repository.GetTaskResults at h
  simp only [] at h
  split_ifs at h <;>
    first
    | (cases h; done)
    | (simp only [Prod.mk.injEq, Except.ok.injEq] at h
       rw [← h.2.2]
       exact Int.natCast_nonneg _)

theorem TaskHandler.ListTasks_meta (r : Repository) (bound : Option ListTasksParams) :
    (TaskHandler.ListTasks r bound).2 ≠ .panic ∧
      ∀ d meta, (TaskHandler.ListTasks r bound).2 = .success d meta →
        0 < meta.Limit ∧ meta.Limit ≤ 100 ∧ 0 ≤ meta.Total := by
  cases bound with
  | none => exact ⟨fun h => (by cases h), fun d meta h => (by cases h)⟩
  | some params =>
    unfold TaskHandler.ListTasks
    simp only []
    by_cases hmax : params.Limit > 100
    · simp only [hmax, if_true]
      exact ⟨fun h => (by cases h), fun d meta h => (by cases h)⟩
    · simp only [hmax, if_false]
      rcases hq : r.ListTasks { params with
          Page := if params.Page == 0 then 1 else params.Page,
          Limit := if params.Limit == 0 then 10 else params.Limit } with ⟨r1, res⟩
      cases res with
      | error e => exact ⟨fun h => (by cases h), fun d meta h => (by cases h)⟩
      | ok val =>
        obtain ⟨tasks, total⟩ := val
        have hne := defaultLimit_ne_zero params.Limit
        obtain ⟨h1, h2⟩ := respondWithMeta_of_ne_zero
          (if params.Page == 0 then 1 else params.Page)
          (if params.Limit == 0 then 10 else params.Limit) total tasks hne
        obtain ⟨hl, ht⟩ := Repository.ListTasks_ok r r1 _ tasks total hq
        simp only [] at hl
        refine ⟨h1, ?_⟩
        intro d meta hs
        obtain ⟨m1, _, m3⟩ := h2 d meta hs
        rw [m1, m3]
        have hle : (if params.Limit == 0 then 10 else params.Limit) ≤ 100 := by
          split_ifs <;> omega
        have hpos : 0 < (if params.Limit == 0 then 10 else params.Limit) := by
          have h0 : 0 ≤ (if params.Limit == 0 then 10 else params.Limit) := by
            split_ifs at hl ⊢ <;> omega
          omega
        exact ⟨hpos, hle, ht⟩

theorem TaskHandler.GetTaskResults_meta (atoi : String → Option Int) (r : Repository)
    (id : Option UUID) (pageStr limitStr : String) :
    (TaskHandler.GetTaskResults atoi r id pageStr limitStr).2 ≠ .panic ∧
      ∀ d meta, (TaskHandler.GetTaskResults atoi r id pageStr limitStr).2 = .success d meta →
        0 < meta.Limit ∧ meta.Limit ≤ 100 ∧ 0 ≤ meta.Total := by
  cases id with
  | none => exact ⟨fun h => (by cases h), fun d meta h => (by cases h)⟩
  | some taskID =>
    unfold TaskHandler.GetTaskResults
    simp only []
    rcases hq : r.GetTaskResults taskID (parsePageLimit atoi pageStr limitStr).1
        (parsePageLimit atoi pageStr limitStr).2 with ⟨r1, res⟩
    cases res with
    | error e => exact ⟨fun h => (by cases h), fun d meta h => (by cases h)⟩
    | ok val =>
      obtain ⟨results, total⟩ := val
      obtain ⟨hpos, hle⟩ := parsePageLimit_limit atoi pageStr limitStr
      obtain ⟨h1, h2⟩ := respondWithMeta_of_ne_zero (parsePageLimit atoi pageStr limitStr).1
        (parsePageLimit atoi pageStr limitStr).2 total results (Int.ne_of_gt hpos)
      have ht := Repository.GetTaskResults_ok r r1 taskID _ _ results total hq
      refine ⟨h1, ?_⟩
      intro d meta hs
      obtain ⟨m1, _, m3⟩ := h2 d meta hs
      rw [m1, m3]
      exact ⟨hpos, hle, ht⟩

theorem ResultHandler.ListResults_meta (r : Repository) (bound : Option ListResultsParams)
    (taskID : Option UUID) :
    (ResultHandler.ListResults r bound taskID).2 ≠ .panic ∧
      ∀ d meta, (ResultHandler.ListResults r bound taskID).2 = .success d meta →
        0 < meta.Limit ∧ meta.Limit ≤ 100 ∧ 0 ≤ meta.Total := by
  cases bound with
  | none => exact ⟨fun h => (by cases h), fun d meta h => (by cases h)⟩
  | some params =>
    unfold ResultHandler.ListResults
    simp only []
    by_cases hmax : params.Limit > 100
    · simp only [hmax, if_true]
      exact ⟨fun h => (by cases h), fun d meta h => (by cases h)⟩
    · simp only [hmax, if_false]
      rcases hq : r.ListAllResults { params with
          Page := if params.Page == 0 then 1 else params.Page,
          Limit := if params.Limit == 0 then 10 else params.Limit,
          TaskID := match taskID with
            | some id => some id
            | none => params.TaskID } with ⟨r1, res⟩
      cases res with
      | error e => exact ⟨fun h => (by cases h), fun d meta h => (by cases h)⟩
      | ok val =>
        obtain ⟨results, total⟩ := val
        have hne := defaultLimit_ne_zero params.Limit
        obtain ⟨h1, h2⟩ := respondWithMeta_of_ne_zero
          (if params.Page == 0 then 1 else params.Page)
          (if params.Limit == 0 then 10 else params.Limit) total results hne
        obtain ⟨hl, ht⟩ := Repository.ListAllResults_ok r r1 _ results total hq
        simp only [] at hl
        refine ⟨h1, ?_⟩
        intro d meta hs
        obtain ⟨m1, _, m3⟩ := h2 d meta hs
        rw [m1, m3]
        have hle : (if params.Limit == 0 then 10 else params.Limit) ≤ 100 := by
          split_ifs <;> omega
        have hpos : 0 < (if params.Limit == 0 then 10 else params.Limit) := by
          have h0 : 0 ≤ (if params.Limit == 0 then 10 else params.Limit) := by
            split_ifs at hl ⊢ <;> omega
          omega
        exact ⟨hpos, hle, ht⟩

/-- C21: for every `limit > 0` and `total ≥ 0` (a Go `int`),
`CalculatePaginationMeta` returns `Page`, `Limit` and `Total` unchanged and
`TotalPages` the ceiling of `total / limit`: the least `n` with
`n * limit ≥ total`, `0` when `total = 0`.  None of the three handlers that call
it panics on the division: each calls it, if at all, with a limit between 1 and
100 and a total that is not negative. -/
theorem CalculatePaginationMeta_total_pages :
    (∀ page limit total : Int, 0 < limit → 0 ≤ total → total < 2 ^ 63 →
      ∃ meta, CalculatePaginationMeta page limit total = some meta ∧
        meta.Page = page ∧ meta.Limit = limit ∧ meta.Total = total ∧
        total ≤ meta.TotalPages * limit ∧
        (∀ n : Int, total ≤ n * limit → meta.TotalPages ≤ n) ∧
        (total = 0 → meta.TotalPages = 0)) ∧
    (∀ page total : Int, CalculatePaginationMeta page 0 total = none) ∧
    (∀ (r : Repository) (bound : Option ListTasksParams),
      (TaskHandler.ListTasks r bound).2 ≠ .panic ∧
      ∀ d meta, (TaskHandler.ListTasks r bound).2 = .success d meta →
        0 < meta.Limit ∧ meta.Limit ≤ 100 ∧ 0 ≤ meta.Total) ∧
    (∀ (atoi : String → Option Int) (r : Repository) (id : Option UUID)
        (pageStr limitStr : String),
      (TaskHandler.GetTaskResults atoi r id pageStr limitStr).2 ≠ .panic ∧
      ∀ d meta, (TaskHandler.GetTaskResults atoi r id pageStr limitStr).2 = .success d meta →
        0 < meta.Limit ∧ meta.Limit ≤ 100 ∧ 0 ≤ meta.Total) ∧
    (∀ (r : Repository) (bound : Option ListResultsParams) (taskID : Option UUID),
      (ResultHandler.ListResults r bound taskID).2 ≠ .panic ∧
      ∀ d meta, (ResultHandler.ListResults r bound taskID).2 = .success d meta →
        0 < meta.Limit ∧ meta.Limit ≤ 100 ∧ 0 ≤ meta.Total) :=
  ⟨CalculatePaginationMeta_of_pos, fun _ _ => rfl, TaskHandler.ListTasks_meta,
    TaskHandler.GetTaskResults_meta, ResultHandler.ListResults_meta⟩

theorem CalculatePaginationMeta_total_pages_witness :
    CalculatePaginationMeta 2 10 25
        = some { Page := 2, Limit := 10, Total := 25, TotalPages := 3 } ∧
      ∃ meta, CalculatePaginationMeta 2 10 25 = some meta ∧ (25 : Int) ≤ meta.TotalPages * 10 ∧
        (∀ n : Int, 25 ≤ n * 10 → meta.TotalPages ≤ n) := by
  obtain ⟨meta, h1, _, _, _, h5, h6, _⟩ :=
    CalculatePaginationMeta_total_pages.1 2 10 25 (by decide) (by decide) (by decide)
  exact ⟨by decide, meta, h1, h5, h6⟩

end TaskScheduler
